import Mathlib

/-!
# myip: cache-and-refresh orchestration

A shallow embedding of `internal/store/redis.go` and `internal/web/handler.go`.

* Go errors are values of `Err`; a nil error is `none : Option Err`.
* A Go function with several results returns a tuple: the values that come
  back next to a non-nil error are kept, because the callers read them.
* Code that talks to the outside (the store, the registry lookup, the error
  handler, the clock) is a function on a world `σ`; `Run σ` pairs the world
  with the chronological list of the calls made so far.
-/

namespace Myip

/-! ## Time (package `time` of the standard library) -/

/-- A `time.Duration`: a number of nanoseconds held in an int64; the constants
and results of that type below are stated at `Int`. -/
abbrev Duration := Int

/-- Largest `time.Duration`, `1<<63 - 1`. -/
def maxDuration : Int := 2 ^ 63 - 1

/-- Smallest `time.Duration`, `-1 << 63`. -/
def minDuration : Int := -(2 ^ 63)

/-- One `time.Nanosecond`. -/
def Nanosecond : Int := 1

/-- One `time.Second`. -/
def Second : Int := 1000000000 * Nanosecond

/-- One `time.Minute`. -/
def Minute : Int := 60 * Second

/-- One `time.Hour`. -/
def Hour : Int := 60 * Minute

/-- A `time.Time`, as the instant it denotes: nanoseconds elapsed since
January 1, year 1, 00:00:00 UTC, the zero value of the Go type. -/
structure Time where
  ns : Int
deriving DecidableEq, Repr

/-- The zero `time.Time{}`. -/
def Time.zero : Time := ⟨0⟩

/-- The method `Time.IsZero`: the instant is January 1, year 1, 00:00:00 UTC. -/
def Time.IsZero (t : Time) : Bool := decide (t.ns = 0)

/-- The method `Time.Sub`: the duration `t - u`, replaced by the largest or
smallest duration when it does not fit. -/
def Time.Sub (t u : Time) : Int :=
  if t.ns - u.ns > maxDuration then maxDuration
  else if t.ns - u.ns < minDuration then minDuration
  else t.ns - u.ns

/-- The method `Time.Add`, on instants. -/
def Time.Add (t : Time) (d : Int) : Time := ⟨t.ns + d⟩

/-- The function `time.Since`, with the reading of the clock made explicit:
`time.Now().Sub(t)`. -/
def Since (now t : Time) : Int := now.Sub t

/-! ## Registry records (`internal/rdap/client.go`) -/

/-- A Go `error` value that is not nil. -/
abbrev Err := String

/-- The struct `rdap.Event`. -/
structure Event where
  Action : String
  Date : String
deriving DecidableEq, Repr

/-- The struct `rdap.Info`. -/
structure Info where
  Country : String
  Handle : String
  IPVersion : String
  Name : String
  Type_ : String
  Events : List Event
deriving DecidableEq, Repr

/-- The zero value `rdap.Info{}`. -/
def Info.empty : Info := ⟨"", "", "", "", "", []⟩

/-! ## The store (`internal/store/redis.go`) -/

/-- The constant `cacheTTL`. -/
def cacheTTL : Int := 7 * 24 * Hour

/-- The constant `refreshAfter`. -/
def refreshAfter : Int := 24 * Hour

/-- The function `NeedsRefresh`; `now` is what `time.Now()` reads inside
`time.Since`. -/
def NeedsRefresh (now fetchedAt : Time) : Bool :=
  if fetchedAt.IsZero then true
  else decide (Since now fetchedAt ≥ refreshAfter)

/-! ## Calls to the outside and their record -/

/-- One call made to a collaborator, with what it returned. -/
inductive Call where
  | IncrementCount (ip : String) (count : Int) (err : Option Err)
  | GetCached (ip : String) (info : Info) (fetchedAt : Time) (ok : Bool) (err : Option Err)
  | SetCached (ip : String) (info : Info) (fetchedAt : Time) (err : Option Err)
  | Lookup (ip : String) (info : Info) (err : Option Err)
  | OnError (err : Err)
deriving DecidableEq, Repr

/-- The world together with the calls made so far, oldest first. -/
structure Run (σ : Type) where
  world : σ
  trace : List Call

/-- The run that starts in world `w` with nothing called yet. -/
def Run.start {σ : Type} (w : σ) : Run σ := ⟨w, []⟩

/-- Record the call `c`, which left the world in `w`. -/
def Run.log {σ : Type} (r : Run σ) (c : Call) (w : σ) : Run σ := ⟨w, r.trace ++ [c]⟩

/-- The call is an `IncrementCount`. -/
def Call.isIncrementCount : Call → Bool
  | .IncrementCount _ _ _ => true
  | _ => false

/-- The call is a `GetCached`. -/
def Call.isGetCached : Call → Bool
  | .GetCached _ _ _ _ _ => true
  | _ => false

/-- The call is a `SetCached`. -/
def Call.isSetCached : Call → Bool
  | .SetCached _ _ _ _ => true
  | _ => false

/-- The call is a `Lookup`. -/
def Call.isLookup : Call → Bool
  | .Lookup _ _ _ => true
  | _ => false

/-- The call is a report to the error handler. -/
def Call.isOnError : Call → Bool
  | .OnError _ => true
  | _ => false

/-- The call goes to the cache or to the registry lookup. -/
def Call.isResolution (c : Call) : Bool :=
  c.isGetCached || c.isSetCached || c.isLookup

/-! ## The Redis client (`github.com/redis/go-redis/v9`, not part of the repository) -/

/-- The sentinel error `redis.Nil`: the key does not exist. -/
def redisNil : Err := "redis: nil"

/-- The three commands of `*redis.Client` the store uses, each followed by
`.Result()` or `.Err()`. -/
structure RedisClient (σ : Type) where
  Get : String → σ → (String × Option Err) × σ
  Set : String → String → Duration → σ → Option Err × σ
  Incr : String → σ → (Int × Option Err) × σ

/-- The struct `cachedRDAP`. -/
structure cachedRDAP where
  FetchedAt : Time
  Info : Info
deriving DecidableEq, Repr

/-- The functions `json.Marshal` and `json.Unmarshal` at type `cachedRDAP`
(package `encoding/json` of the standard library). -/
structure JSON where
  Marshal : cachedRDAP → String × Option Err
  Unmarshal : String → cachedRDAP × Option Err

/-- The struct `RedisStore`. -/
structure RedisStore (σ : Type) where
  client : RedisClient σ

/-- The function `cacheKey`. -/
def cacheKey (ip : String) : String := "rdap:" ++ ip

/-- The function `countKey`. -/
def countKey (ip : String) : String := "count:" ++ ip

/-- The method `RedisStore.GetCached`. -/
def RedisStore.GetCached {σ : Type} (json : JSON) (s : RedisStore σ) (ip : String) (w : σ) :
    (Info × Time × Bool × Option Err) × σ :=
  let key := cacheKey ip
  let g := s.client.Get key w
  match g.1.2 with
  | some err =>
    if err = redisNil then ((Info.empty, Time.zero, false, none), g.2)
    else ((Info.empty, Time.zero, false, some ("get cache: " ++ err)), g.2)
  | none =>
    let u := json.Unmarshal g.1.1
    match u.2 with
    | some err => ((Info.empty, Time.zero, false, some ("decode cache: " ++ err)), g.2)
    | none => ((u.1.Info, u.1.FetchedAt, true, none), g.2)

/-- The method `RedisStore.SetCached`. -/
def RedisStore.SetCached {σ : Type} (json : JSON) (s : RedisStore σ) (ip : String)
    (info : Info) (fetchedAt : Time) (w : σ) : Option Err × σ :=
  let cached : cachedRDAP := { FetchedAt := fetchedAt, Info := info }
  let m := json.Marshal cached
  match m.2 with
  | some err => (some ("encode cache: " ++ err), w)
  | none =>
    let p := s.client.Set (cacheKey ip) m.1 cacheTTL w
    match p.1 with
    | some err => (some ("set cache: " ++ err), p.2)
    | none => (none, p.2)

/-- The method `RedisStore.IncrementCount`. -/
def RedisStore.IncrementCount {σ : Type} (s : RedisStore σ) (ip : String) (w : σ) :
    (Int × Option Err) × σ :=
  let c := s.client.Incr (countKey ip) w
  match c.1.2 with
  | some err => ((0, some ("increment count: " ++ err)), c.2)
  | none => ((c.1.1, none), c.2)

/-! ## The service (`internal/web/handler.go`) -/

/-- The interface `Store`. -/
structure Store (σ : Type) where
  GetCached : String → σ → (Info × Time × Bool × Option Err) × σ
  SetCached : String → Info → Time → σ → Option Err × σ
  IncrementCount : String → σ → (Int × Option Err) × σ

/-- A `*RedisStore` seen through the interface `Store`. -/
def RedisStore.toStore {σ : Type} (json : JSON) (s : RedisStore σ) : Store σ :=
  { GetCached := s.GetCached json
    SetCached := s.SetCached json
    IncrementCount := s.IncrementCount }

/-- The interface `RDAPLookup`. -/
structure RDAPLookup (σ : Type) where
  Lookup : String → σ → (Info × Option Err) × σ

/-- The struct `Response`. -/
structure Response where
  IP : String
  CountCall : Int
  RDAP : Info
  Events : List Event
  Error : Option Err
deriving DecidableEq, Repr

/-- The struct `ServiceImpl`; a nil `rdapClient` or `onError` is `none`. -/
structure ServiceImpl (σ : Type) where
  store : Store σ
  rdapClient : Option (RDAPLookup σ)
  onError : Option (Err → σ → σ)

/-- The function `NewService`. -/
def NewService {σ : Type} (store : Store σ) (rdapClient : Option (RDAPLookup σ))
    (errorHandler : Option (Err → σ → σ)) : ServiceImpl σ :=
  let errorHandler : Err → σ → σ :=
    match errorHandler with
    | none => fun _ w => w
    | some h => h
  { store := store, rdapClient := rdapClient, onError := some errorHandler }

/-- The method `ServiceImpl.OnError`. -/
def ServiceImpl.OnError {σ : Type} (s : ServiceImpl σ) (err : Err) (r : Run σ) : Run σ :=
  match s.onError with
  | some h => r.log (Call.OnError err) (h err r.world)
  | none => r

/-- The statement `if err != nil { s.OnError(err) }`. -/
def ServiceImpl.OnErrorIf {σ : Type} (s : ServiceImpl σ) (err : Option Err) (r : Run σ) : Run σ :=
  match err with
  | some e => s.OnError e r
  | none => r

/-- The method `ServiceImpl.Fetch`; `now` is the reading of `time.Now()` in a
world. The result is the pair `(Response, error)` and the run it leaves. -/
def ServiceImpl.Fetch {σ : Type} (now : σ → Time) (s : ServiceImpl σ) (ip : String)
    (r0 : Run σ) : (Response × Option Err) × Run σ :=
  -- count, err := s.store.IncrementCount(ctx, ip)
  let c := s.store.IncrementCount ip r0.world
  let count := c.1.1
  -- if err != nil { s.OnError(err); fetchError = err }
  let fetchError := c.1.2
  let r1 := s.OnErrorIf c.1.2 (r0.log (Call.IncrementCount ip count c.1.2) c.2)
  -- info := rdap.Info{}; if s.rdapClient != nil { ... }
  let out : Info × Run σ :=
    match s.rdapClient with
    | none => (Info.empty, r1)
    | some rdapClient =>
      -- cached, fetchedAt, ok, err := s.store.GetCached(ctx, ip)
      let g := s.store.GetCached ip r1.world
      let cached := g.1.1
      let fetchedAt := g.1.2.1
      let ok := g.1.2.2.1
      -- if err != nil { s.OnError(err) }
      let r2 := s.OnErrorIf g.1.2.2.2 (r1.log (Call.GetCached ip cached fetchedAt ok g.1.2.2.2) g.2)
      if ok && !NeedsRefresh (now r2.world) fetchedAt then
        (cached, r2)
      else
        -- fetched, err := s.rdapClient.Lookup(ctx, ip)
        let l := rdapClient.Lookup ip r2.world
        let fetched := l.1.1
        let r3 := r2.log (Call.Lookup ip fetched l.1.2) l.2
        match l.1.2 with
        | some err =>
          -- s.OnError(fmt.Errorf("rdap lookup: %w", err)); if ok { info = cached }
          (if ok then cached else Info.empty, s.OnError ("rdap lookup: " ++ err) r3)
        | none =>
          -- info = fetched; s.store.SetCached(ctx, ip, fetched, time.Now().UTC())
          let t := now r3.world
          let p := s.store.SetCached ip fetched t r3.world
          (fetched, s.OnErrorIf p.1 (r3.log (Call.SetCached ip fetched t p.1) p.2))
  let info := out.1
  (({ IP := ip, CountCall := count, RDAP := info, Events := info.Events, Error := fetchError },
    none), out.2)

/-! ## The HTTP handler (`internal/web/handler.go`) -/

/-- The predicate `unicode.IsSpace`. -/
def isSpace (c : Char) : Bool :=
  let n := c.toNat
  (9 ≤ n && n ≤ 13) || n = 32 || n = 0x85 || n = 0xA0 || n = 0x1680 ||
    (0x2000 ≤ n && n ≤ 0x200A) || n = 0x2028 || n = 0x2029 || n = 0x202F ||
    n = 0x205F || n = 0x3000

/-- The function `strings.TrimSpace`. -/
def TrimSpace (s : String) : String :=
  String.mk ((s.data.dropWhile isSpace).reverse.dropWhile isSpace).reverse

/-- The function `strings.HasPrefix`. -/
def HasPrefix (s p : String) : Bool := p.data.isPrefixOf s.data

/-- The pieces of a list of characters between the occurrences of `sep`. -/
def splitChars (sep : Char) : List Char → List (List Char)
  | [] => [[]]
  | c :: cs =>
    if c = sep then [] :: splitChars sep cs
    else
      match splitChars sep cs with
      | [] => [[c]]
      | p :: ps => (c :: p) :: ps

/-- The function `strings.Split` for a separator of one character. -/
def Split (s : String) (sep : Char) : List String :=
  (splitChars sep s.data).map String.mk

/-- Some suffix of `s` starts with `sub`. -/
def containsChars (sub : List Char) : List Char → Bool
  | [] => sub.isPrefixOf []
  | c :: cs => sub.isPrefixOf (c :: cs) || containsChars sub cs

/-- The function `strings.Contains`. -/
def Contains (s substr : String) : Bool := containsChars substr.data s.data

/-- Functions of the standard library that are taken as given: `net.ParseIP`
(whether the result is non-nil), `net.SplitHostPort` (host, port, error) and
`strings.ToLower`. -/
structure Stdlib where
  ParseIP : String → Bool
  SplitHostPort : String → String × String × Option Err
  ToLower : String → String

/-- The fields and methods of `*http.Request` the handler reads: `r.URL.Path`,
`r.URL.Query().Get`, `r.Header.Get`, `r.Host` and `r.RemoteAddr`. -/
structure Request where
  Path : String
  Query : String → String
  Header : String → String
  Host : String
  RemoteAddr : String

/-- The loop of `clientIP` over the parts of `X-Forwarded-For`: the first part
that parses once trimmed. -/
def firstForwarded (lib : Stdlib) : List String → Option String
  | [] => none
  | part :: parts =>
    let ip := TrimSpace part
    if lib.ParseIP ip then some ip else firstForwarded lib parts

/-- The function `clientIP`. -/
def clientIP (lib : Stdlib) (r : Request) : String :=
  let ip := TrimSpace (r.Query "ip")
  if ip ≠ "" && lib.ParseIP ip then ip
  else
    let forwarded := r.Header "X-Forwarded-For"
    match (if forwarded ≠ "" then firstForwarded lib (Split forwarded ',') else none) with
    | some ip => ip
    | none =>
      let realIP := TrimSpace (r.Header "X-Real-IP")
      if realIP ≠ "" && lib.ParseIP realIP then realIP
      else
        let hp := lib.SplitHostPort (TrimSpace r.RemoteAddr)
        if hp.2.2 = none && lib.ParseIP hp.1 then hp.1
        else r.RemoteAddr

/-- The function `wantsJSON`. -/
def wantsJSON (lib : Stdlib) (r : Request) : Bool :=
  if HasPrefix r.Path "/api" then true
  else
    let hp := lib.SplitHostPort r.Host
    let host := if hp.2.2 = none then hp.1 else r.Host
    let parts := Split host '.'
    if parts.headD "" = "api" || parts.getLastD "" = "api" then true
    else
      let contentType := lib.ToLower (r.Header "Content-Type")
      Contains contentType "json"

/-- The function `hasRDAP`. -/
def hasRDAP (info : Info) : Bool :=
  info.Country ≠ "" || info.Handle ≠ "" || info.IPVersion ≠ "" || info.Name ≠ "" ||
    info.Type_ ≠ "" || info.Events.length > 0

/-- The struct `apiResponse`. -/
structure apiResponse where
  IP : String
  CountCall : Int
  Country : String
  Handle : String
  IPVersion : String
  Name : String
  Type_ : String
  Events : List Event
deriving DecidableEq, Repr

/-- The struct `templateData`. -/
structure templateData where
  IP : String
  CountCall : Int
  RDAP : Info
  HasRDAP : Bool
deriving DecidableEq, Repr

/-- One call the handler makes on its `http.ResponseWriter`, directly or by
handing it to the JSON encoder or to the template. -/
inductive Write where
  | WriteHeader (status : Nat)
  | SetHeader (key value : String)
  | Encode (payload : apiResponse)
  | Execute (data : templateData)
deriving DecidableEq, Repr

/-- The constant `http.StatusNotFound`. -/
def StatusNotFound : Nat := 404

/-- The constant `http.StatusInternalServerError`. -/
def StatusInternalServerError : Nat := 500

/-- The interface `Service`. -/
structure Service (σ : Type) where
  Fetch : String → Run σ → (Response × Option Err) × Run σ
  OnError : Err → Run σ → Run σ

/-- A `*ServiceImpl` seen through the interface `Service`. -/
def ServiceImpl.toService {σ : Type} (now : σ → Time) (s : ServiceImpl σ) : Service σ :=
  { Fetch := s.Fetch now
    OnError := s.OnError }

/-- A `*template.Template`, through its method `Execute` on the response
writer: the error it returns and the world it leaves. -/
structure Template (σ : Type) where
  Execute : templateData → σ → Option Err × σ

/-- The call `json.NewEncoder(w).Encode(payload)` on the response writer: the
error it returns and the world it leaves. -/
abbrev Encoder (σ : Type) := apiResponse → σ → Option Err × σ

/-- The struct `Handler`. -/
structure Handler (σ : Type) where
  tmpl : Template σ
  service : Service σ

/-- The method `Handler.ServeHTTP`: the calls made on the response writer,
after those of `w`, and the run it leaves. -/
def Handler.ServeHTTP {σ : Type} (lib : Stdlib) (encode : Encoder σ) (h : Handler σ)
    (w : List Write) (r : Request) (run : Run σ) : List Write × Run σ :=
  if r.Path ≠ "/" && !HasPrefix r.Path "/api" then
    (w ++ [Write.WriteHeader StatusNotFound], run)
  else
    let ip := clientIP lib r
    -- response, err := h.service.Fetch(ctx, ip)
    let f := h.service.Fetch ip run
    let response := f.1.1
    match f.1.2 with
    | some err =>
      (w ++ [Write.WriteHeader StatusInternalServerError], h.service.OnError err f.2)
    | none =>
      match response.Error with
      | some err =>
        (w ++ [Write.WriteHeader StatusInternalServerError], h.service.OnError err f.2)
      | none =>
        if wantsJSON lib r then
          let w1 := w ++ [Write.SetHeader "Content-Type" "application/json"]
          let payload : apiResponse :=
            { IP := response.IP
              CountCall := response.CountCall
              Country := response.RDAP.Country
              Handle := response.RDAP.Handle
              IPVersion := response.RDAP.IPVersion
              Name := response.RDAP.Name
              Type_ := response.RDAP.Type_
              Events := response.RDAP.Events }
          let e := encode payload f.2.world
          let run1 : Run σ := ⟨e.2, f.2.trace⟩
          match e.1 with
          | some err =>
            (w1 ++ [Write.Encode payload, Write.WriteHeader StatusInternalServerError],
              h.service.OnError err run1)
          | none => (w1 ++ [Write.Encode payload], run1)
        else
          let w1 := w ++ [Write.SetHeader "Content-Type" "text/html; charset=utf-8"]
          let data : templateData :=
            { IP := response.IP
              CountCall := response.CountCall
              RDAP := response.RDAP
              HasRDAP := hasRDAP response.RDAP }
          let e := h.tmpl.Execute data f.2.world
          let run1 : Run σ := ⟨e.2, f.2.trace⟩
          match e.1 with
          | some err =>
            (w1 ++ [Write.Execute data, Write.WriteHeader StatusInternalServerError],
              h.service.OnError err run1)
          | none => (w1 ++ [Write.Execute data], run1)

/-! ## Definitions used to state the properties -/

/-- The call hands a body to the response writer. -/
def Write.isBody : Write → Bool
  | .Encode _ => true
  | .Execute _ => true
  | _ => false

/-- The error a report carries: the argument of a call to the error handler. -/
def Call.reported : Call → Option Err
  | Call.OnError e => some e
  | _ => none

/-- The error a failed operation is reported with: the error `IncrementCount`,
`GetCached` or `SetCached` returned, and the error of `Lookup` wrapped as
"rdap lookup: ..."; nothing for a call that returned no error. -/
def Call.failure : Call → Option Err
  | Call.IncrementCount _ _ (some e) => some e
  | Call.GetCached _ _ _ _ (some e) => some e
  | Call.SetCached _ _ _ (some e) => some e
  | Call.Lookup _ _ (some e) => some ("rdap lookup: " ++ e)
  | _ => none

/-- The call is an operation of the store or of the lookup that returned an
error. -/
def Call.failed : Call → Bool
  | Call.IncrementCount _ _ (some _) => true
  | Call.GetCached _ _ _ _ (some _) => true
  | Call.SetCached _ _ _ (some _) => true
  | Call.Lookup _ _ (some _) => true
  | _ => false

/-- The run in which `Fetch` goes on after counting: `IncrementCount` was
called and its error, if any, reported (lines 203 to 207). -/
def ServiceImpl.counted {σ : Type} (s : ServiceImpl σ) (ip : String) (r0 : Run σ) : Run σ :=
  s.OnErrorIf (s.store.IncrementCount ip r0.world).1.2
    (r0.log (Call.IncrementCount ip (s.store.IncrementCount ip r0.world).1.1
      (s.store.IncrementCount ip r0.world).1.2) (s.store.IncrementCount ip r0.world).2)

/-- What the call of `GetCached` on line 211 returns, and the world it leaves. -/
def ServiceImpl.cacheRead {σ : Type} (s : ServiceImpl σ) (ip : String) (r0 : Run σ) :
    (Info × Time × Bool × Option Err) × σ :=
  s.store.GetCached ip (s.counted ip r0).world

/-- The run after the cache was read and the error of the read, if any,
reported (lines 211 to 214). -/
def ServiceImpl.consulted {σ : Type} (s : ServiceImpl σ) (ip : String) (r0 : Run σ) : Run σ :=
  s.OnErrorIf (s.cacheRead ip r0).1.2.2.2
    ((s.counted ip r0).log (Call.GetCached ip (s.cacheRead ip r0).1.1 (s.cacheRead ip r0).1.2.1
      (s.cacheRead ip r0).1.2.2.1 (s.cacheRead ip r0).1.2.2.2) (s.cacheRead ip r0).2)

/-- The condition of line 216: the read found an entry and `NeedsRefresh`, at
the time it is evaluated, is false for its fetched-at. -/
def ServiceImpl.servesCached {σ : Type} (now : σ → Time) (s : ServiceImpl σ) (ip : String)
    (r0 : Run σ) : Bool :=
  (s.cacheRead ip r0).1.2.2.1 &&
    !NeedsRefresh (now (s.consulted ip r0).world) (s.cacheRead ip r0).1.2.1

/-- What the call of `Lookup` on line 219 returns, when it is reached, and the
world it leaves. -/
def ServiceImpl.lookedUp {σ : Type} (s : ServiceImpl σ) (rdapClient : RDAPLookup σ)
    (ip : String) (r0 : Run σ) : (Info × Option Err) × σ :=
  rdapClient.Lookup ip (s.consulted ip r0).world

/-- The run after the call of `Lookup` on line 219. -/
def ServiceImpl.afterLookup {σ : Type} (s : ServiceImpl σ) (rdapClient : RDAPLookup σ)
    (ip : String) (r0 : Run σ) : Run σ :=
  (s.consulted ip r0).log (Call.Lookup ip (s.lookedUp rdapClient ip r0).1.1
    (s.lookedUp rdapClient ip r0).1.2) (s.lookedUp rdapClient ip r0).2

/-- What the call of `SetCached` on line 227 returns, when it is reached, and
the world it leaves; the fetched-at it is given is the clock after the lookup. -/
def ServiceImpl.cacheWrite {σ : Type} (now : σ → Time) (s : ServiceImpl σ)
    (rdapClient : RDAPLookup σ) (ip : String) (r0 : Run σ) : Option Err × σ :=
  s.store.SetCached ip (s.lookedUp rdapClient ip r0).1.1
    (now (s.afterLookup rdapClient ip r0).world) (s.afterLookup rdapClient ip r0).world

/-- The run after the call of `SetCached` on line 227 and the report of its
error, if any (lines 227 to 229). -/
def ServiceImpl.afterWrite {σ : Type} (now : σ → Time) (s : ServiceImpl σ)
    (rdapClient : RDAPLookup σ) (ip : String) (r0 : Run σ) : Run σ :=
  s.OnErrorIf (s.cacheWrite now rdapClient ip r0).1
    ((s.afterLookup rdapClient ip r0).log
      (Call.SetCached ip (s.lookedUp rdapClient ip r0).1.1
        (now (s.afterLookup rdapClient ip r0).world) (s.cacheWrite now rdapClient ip r0).1)
      (s.cacheWrite now rdapClient ip r0).2)

/-- The run after `n` invocations of `Fetch` for the same address, one after
the other. -/
def ServiceImpl.FetchTimes {σ : Type} (now : σ → Time) (s : ServiceImpl σ) (ip : String) :
    Nat → Run σ → Run σ
  | 0, r => r
  | n + 1, r => (s.Fetch now ip (ServiceImpl.FetchTimes now s ip n r)).2

/-- The store of `TestServiceImpl_Fetch` (`service_test.go`), in a world that
is the reading of the clock: the count is 1 and the cache holds the record
with country "US", fetched at the time of the read. Its `setCached` is not
set in the test; here it returns an error. -/
def testStore : Store Time :=
  { GetCached := fun _ w => ((⟨"US", "", "", "", "", []⟩, w, true, none), w)
    SetCached := fun _ _ _ w => (some "setCached is not set", w)
    IncrementCount := fun _ w => ((1, none), w) }

/-- The lookup of `TestServiceImpl_Fetch`: its `lookupFunc` is not set in the
test; here it returns an error. -/
def testLookup {σ : Type} : RDAPLookup σ :=
  { Lookup := fun _ w => ((Info.empty, some "lookupFunc is not set"), w) }

/-- The service of `TestServiceImpl_Fetch`: `NewService(ms, ml, nil)`. -/
def testService : ServiceImpl Time := NewService testStore (some testLookup) none

/-- A reading of the clock: 2026-01-01 00:00:00 UTC, as nanoseconds since the
zero instant. -/
def testNow : Time := ⟨63902822400000000000⟩

/-- A store in a world that is the reading of the clock: the count is 1 and
the cache holds the record with country "US", fetched 30 hours before the
read; writes to the cache fail. -/
def staleStore : Store Time :=
  { GetCached := fun _ w => ((⟨"US", "", "", "", "", []⟩, w.Add (-(30 * Hour)), true, none), w)
    SetCached := fun _ _ _ w => (some "set cache: connection refused", w)
    IncrementCount := fun _ w => ((1, none), w) }

/-- A lookup that answers every address with the record of country "US" and
name "TEST-NET". -/
def netLookup {σ : Type} : RDAPLookup σ :=
  { Lookup := fun _ w => ((⟨"US", "", "", "TEST-NET", "", []⟩, none), w) }

/-- The service `s` with `IncrementCount` replaced by one that succeeds with
the count `n` and leaves the world `w1`. -/
def ServiceImpl.countingAs {σ : Type} (s : ServiceImpl σ) (n : Int) (w1 : σ) : ServiceImpl σ :=
  { store :=
      { GetCached := s.store.GetCached
        SetCached := s.store.SetCached
        IncrementCount := fun _ _ => ((n, none), w1) }
    rdapClient := s.rdapClient
    onError := s.onError }

/-- A Redis client whose server cannot be reached: every command fails. -/
def downRedis : RedisClient Time :=
  { Get := fun _ w => (("", some "dial tcp: connection refused"), w)
    Set := fun _ _ _ w => (some "dial tcp: connection refused", w)
    Incr := fun _ w => ((0, some "dial tcp: connection refused"), w) }

/-- A JSON codec that rejects every payload and encodes every entry as an
empty object. -/
def strictJSON : JSON :=
  { Marshal := fun _ => ("\x7b\x7d", none)
    Unmarshal := fun _ => (⟨Time.zero, Info.empty⟩, some "unexpected end of JSON input") }

/-- A store, in a world that is the reading of the clock, whose cache read
returns an error together with the record of country "US", marked as found
and fetched `age` nanoseconds before the read. -/
def faultyStore (age : Int) : Store Time :=
  { GetCached := fun _ w =>
      ((⟨"US", "", "", "", "", []⟩, w.Add (-age), true, some "get cache: i/o timeout"), w)
    SetCached := fun _ _ _ w => (none, w)
    IncrementCount := fun _ w => ((1, none), w) }

/-- Standard-library functions for concrete runs: only "1.2.3.4" parses as an
IP address, no address splits as host and port, and lower-casing is the
identity. -/
def plainLib : Stdlib :=
  { ParseIP := fun s => decide (s = "1.2.3.4")
    SplitHostPort := fun s => (s, "", some "missing port in address")
    ToLower := fun s => s }

/-- The request `GET /?ip=1.2.3.4` to the host "www.example.com". -/
def rootRequest : Request :=
  { Path := "/"
    Query := fun k => if k = "ip" then "1.2.3.4" else ""
    Header := fun _ => ""
    Host := "www.example.com"
    RemoteAddr := "10.0.0.1:1234" }

/-- A template that renders without error. -/
def okTemplate : Template Time := { Execute := fun _ w => (none, w) }

/-- A JSON encoder that writes without error. -/
def okEncoder : Encoder Time := fun _ w => (none, w)

/-- A service over a `RedisStore` whose server cannot be reached, with a
lookup that answers. -/
def downService : ServiceImpl Time :=
  NewService (RedisStore.toStore strictJSON ⟨downRedis⟩) (some netLookup) none

/-- The handler over `downService`. -/
def downHandler : Handler Time :=
  { tmpl := okTemplate, service := downService.toService id }

/-- The handler over the service of `TestServiceImpl_Fetch`. -/
def testHandler : Handler Time :=
  { tmpl := okTemplate, service := testService.toService id }

/-- Standard-library functions for the requests of `ip_test.go`: the addresses
of the tests parse, the two remote addresses of the tests split at their
colon, and lower-casing maps every rune with `Char.toLower`. -/
def testLib : Stdlib :=
  { ParseIP := fun s =>
      decide (s ∈ ["1.2.3.4", "10.0.0.1", "10.0.0.2", "8.8.8.8", "192.168.1.1"])
    SplitHostPort := fun s =>
      if s = "1.2.3.4:1234" then ("1.2.3.4", "1234", none)
      else if s = "192.168.1.1:1234" then ("192.168.1.1", "1234", none)
      else if s = "api.example.com:8080" then ("api.example.com", "8080", none)
      else ("", "", some "missing port in address")
    ToLower := fun s => String.mk (s.data.map Char.toLower) }

/-- The request of the case "Invalid GET parameter ip fallback" of
`TestClientIP`: `GET /?ip=invalid` from "1.2.3.4:1234". -/
def invalidIPRequest : Request :=
  { Path := "/"
    Query := fun k => if k = "ip" then "invalid" else ""
    Header := fun _ => ""
    Host := "example.com"
    RemoteAddr := "1.2.3.4:1234" }

/-- The request of the case "X-Forwarded-For" of `TestClientIP`: `GET /` from
"192.168.1.1:1234" with the header `X-Forwarded-For: 10.0.0.1, 1.2.3.4`. -/
def forwardedRequest : Request :=
  { Path := "/"
    Query := fun _ => ""
    Header := fun k => if k = "X-Forwarded-For" then "10.0.0.1, 1.2.3.4" else ""
    Host := "example.com"
    RemoteAddr := "192.168.1.1:1234" }

/-- The host with any port removed, as `wantsJSON` computes it: the host part
when `net.SplitHostPort` succeeds, the host as it is otherwise. -/
def hostWithoutPort (lib : Stdlib) (host : String) : String :=
  if (lib.SplitHostPort host).2.2 = none then (lib.SplitHostPort host).1 else host

/-- The request of the case "Subdomain api with port" of `TestWantsJSON`:
`GET /` to the host "api.example.com:8080". -/
def apiHostRequest : Request :=
  { Path := "/"
    Query := fun _ => ""
    Header := fun _ => ""
    Host := "api.example.com:8080"
    RemoteAddr := "192.0.2.1:1234" }

/-- The request of the case "Other subdomain" of `TestWantsJSON`: `GET /` to
the host "www.example.com", without a `Content-Type`. -/
def wwwRequest : Request :=
  { Path := "/"
    Query := fun _ => ""
    Header := fun _ => ""
    Host := "www.example.com"
    RemoteAddr := "192.0.2.1:1234" }

/-- A request `GET /` to "www.example.com" with the header
`Content-Type: application/JSON`. -/
def jsonRequest : Request :=
  { Path := "/"
    Query := fun _ => ""
    Header := fun k => if k = "Content-Type" then "application/JSON" else ""
    Host := "www.example.com"
    RemoteAddr := "192.0.2.1:1234" }

/-- A store, in a world that is the reading of the clock, whose
`IncrementCount` returns the count 5 together with an error; its cache is
empty and accepts writes. -/
def miscountingStore : Store Time :=
  { GetCached := fun _ w => ((Info.empty, Time.zero, false, none), w)
    SetCached := fun _ _ _ w => (none, w)
    IncrementCount := fun _ w => ((5, some "increment count: i/o timeout"), w) }

/-- A store in a world that is the list of the errors the error handler has
received so far: the count is 1 and the cache holds the record with country
"US", fetched 30 hours before `testNow`. -/
def sinkStore : Store (List Err) :=
  { GetCached := fun _ w =>
      ((⟨"US", "", "", "", "", []⟩, testNow.Add (-(30 * Hour)), true, none), w)
    SetCached := fun _ _ _ w => (none, w)
    IncrementCount := fun _ w => ((1, none), w) }

/-- An error handler that keeps what it receives: it appends the error to the
world. -/
def keepError : Err → List Err → List Err := fun e w => w ++ [e]

/-- The service over `sinkStore` with a lookup that fails and the handler
`keepError`. -/
def sinkService : ServiceImpl (List Err) :=
  NewService sinkStore (some testLookup) (some keepError)

/-! ## A Redis server in memory, for concrete runs -/

/-- The largest int64, `math.MaxInt64`. -/
def maxInt64 : Int := 2 ^ 63 - 1

/-- A value held under a key: a string, or an integer as `INCR` keeps it. -/
inductive RedisValue where
  | str (s : String)
  | int (n : Int)
deriving DecidableEq, Repr

/-- The keys of a Redis server and their values; expiry is left out. -/
abbrev Mem := String → Option RedisValue

/-- The server `w` with `v` stored under the key `k`. -/
def Mem.put (w : Mem) (k : String) (v : RedisValue) : Mem :=
  fun k' => if k' = k then some v else w k'

/-- The commands `GET`, `SET` and `INCR` on a server in memory: `GET` of a
missing key returns `redis.Nil`; `INCR` counts a missing key from 0 and fails
on a string and on the largest int64. -/
def memRedis : RedisClient Mem :=
  { Get := fun k w =>
      match w k with
      | none => (("", some redisNil), w)
      | some (RedisValue.str v) => ((v, none), w)
      | some (RedisValue.int n) => ((toString n, none), w)
    Set := fun k v _ w => (none, w.put k (RedisValue.str v))
    Incr := fun k w =>
      match w k with
      | none => ((1, none), w.put k (RedisValue.int 1))
      | some (RedisValue.int n) =>
        if n < maxInt64 then ((n + 1, none), w.put k (RedisValue.int (n + 1)))
        else ((0, some "ERR increment or decrement would overflow"), w)
      | some (RedisValue.str _) => ((0, some "ERR value is not an integer or out of range"), w) }

/-- The call counter of address `a` on the server: the integer under
`countKey a`, 0 when there is none. -/
def Mem.counter (w : Mem) (a : String) : Int :=
  match w (countKey a) with
  | some (RedisValue.int n) => n
  | _ => 0

/-- A server on which "1.2.3.4" was counted 41 times and "5.6.7.8" 7 times,
with nothing cached. -/
def memWorld : Mem :=
  fun k => if k = "count:1.2.3.4" then some (RedisValue.int 41)
    else if k = "count:5.6.7.8" then some (RedisValue.int 7) else none

/-- The service over a `RedisStore` on the server in memory, with a lookup
that answers. -/
def memService : ServiceImpl Mem :=
  NewService (RedisStore.toStore strictJSON ⟨memRedis⟩) (some netLookup) none

/-! ## Freshness policy -/

/-- C2: `NeedsRefresh` is true at the zero timestamp; at any other timestamp it
is true exactly when `now - fetchedAt` is at least 24 hours (86400000000000
nanoseconds). So it is false 23 hours before `now` (when that instant is not
the zero timestamp) and true 24 and 25 hours before `now`. -/
theorem NeedsRefresh_spec (now fetchedAt : Time) :
    (fetchedAt = Time.zero → NeedsRefresh now fetchedAt = true) ∧
    (fetchedAt ≠ Time.zero →
      (NeedsRefresh now fetchedAt = true ↔ now.ns - fetchedAt.ns ≥ 86400000000000)) ∧
    (now.Add (-(23 * Hour)) ≠ Time.zero → NeedsRefresh now (now.Add (-(23 * Hour))) = false) ∧
    NeedsRefresh now (now.Add (-(24 * Hour))) = true ∧
    NeedsRefresh now (now.Add (-(25 * Hour))) = true := by
  have hz : ∀ t : Time, t ≠ Time.zero → t.ns ≠ 0 := by
    intro t ht h0
    apply ht
    cases t
    simp_all [Time.zero]
  refine ⟨?_, ?_, ?_, ?_, ?_⟩
  · intro h
    subst h
    simp [NeedsRefresh, Time.IsZero, Time.zero]
  · intro h
    have h0 := hz _ h
    simp only [NeedsRefresh, Time.IsZero, Since, Time.Sub, maxDuration, minDuration,
      refreshAfter, Hour, Minute, Second, Nanosecond]
    simp only [h0, decide_False, Bool.false_eq_true, if_false, decide_eq_true_eq]
    split_ifs <;> constructor <;> intro _ <;> omega
  · intro h
    have h0 := hz _ h
    simp only [Time.Add] at h0
    simp only [NeedsRefresh, Time.IsZero, Since, Time.Sub, Time.Add, maxDuration, minDuration,
      refreshAfter, Hour, Minute, Second, Nanosecond] at h0 ⊢
    simp only [h0, decide_False, Bool.false_eq_true, if_false, decide_eq_false_iff_not]
    intro hge
    split_ifs at hge <;> omega
  · simp only [NeedsRefresh, Time.IsZero, Since, Time.Sub, Time.Add, maxDuration, minDuration,
      refreshAfter, Hour, Minute, Second, Nanosecond]
    split_ifs <;> first | rfl | (simp only [decide_eq_true_eq]; omega)
  · simp only [NeedsRefresh, Time.IsZero, Since, Time.Sub, Time.Add, maxDuration, minDuration,
      refreshAfter, Hour, Minute, Second, Nanosecond]
    split_ifs <;> first | rfl | (simp only [decide_eq_true_eq]; omega)

/-- Witness for C2 with `now` 100 hours after the zero instant and a cache
entry fetched 80 hours after it. -/
theorem NeedsRefresh_spec_witness :
    (Time.mk 0 = Time.zero → NeedsRefresh ⟨360000000000000⟩ ⟨0⟩ = true) ∧
    (NeedsRefresh ⟨360000000000000⟩ ⟨288000000000000⟩ = true ↔
      (360000000000000 : Int) - 288000000000000 ≥ 86400000000000) ∧
    NeedsRefresh ⟨360000000000000⟩ ((Time.mk 360000000000000).Add (-(23 * Hour))) = false :=
  ⟨(NeedsRefresh_spec ⟨360000000000000⟩ ⟨0⟩).1,
   (NeedsRefresh_spec ⟨360000000000000⟩ ⟨288000000000000⟩).2.1 (by decide),
   (NeedsRefresh_spec ⟨360000000000000⟩ ⟨0⟩).2.2.1 (by decide)⟩

/-! ## How `Fetch` unfolds -/

theorem Fetch_disabled {σ : Type} (now : σ → Time) (s : ServiceImpl σ) (ip : String)
    (r0 : Run σ) (h : s.rdapClient = none) :
    s.Fetch now ip r0 =
      (({ IP := ip, CountCall := (s.store.IncrementCount ip r0.world).1.1, RDAP := Info.empty,
          Events := [], Error := (s.store.IncrementCount ip r0.world).1.2 }, none),
        s.counted ip r0) := by
  simp only [ServiceImpl.Fetch, h, ServiceImpl.counted, Info.empty]

theorem Fetch_cached {σ : Type} (now : σ → Time) (s : ServiceImpl σ) (ip : String)
    (r0 : Run σ) (cl : RDAPLookup σ) (h : s.rdapClient = some cl)
    (hf : s.servesCached now ip r0 = true) :
    s.Fetch now ip r0 =
      (({ IP := ip, CountCall := (s.store.IncrementCount ip r0.world).1.1,
          RDAP := (s.cacheRead ip r0).1.1, Events := (s.cacheRead ip r0).1.1.Events,
          Error := (s.store.IncrementCount ip r0.world).1.2 }, none),
        s.consulted ip r0) := by
  unfold ServiceImpl.servesCached ServiceImpl.consulted ServiceImpl.cacheRead
    ServiceImpl.counted at hf
  simp only [ServiceImpl.Fetch, h, ServiceImpl.counted, ServiceImpl.consulted,
    ServiceImpl.cacheRead, hf, if_true]

theorem Fetch_lookup_failed {σ : Type} (now : σ → Time) (s : ServiceImpl σ) (ip : String)
    (r0 : Run σ) (cl : RDAPLookup σ) (h : s.rdapClient = some cl)
    (hf : s.servesCached now ip r0 = false) (e : Err)
    (he : (s.lookedUp cl ip r0).1.2 = some e) :
    s.Fetch now ip r0 =
      (({ IP := ip, CountCall := (s.store.IncrementCount ip r0.world).1.1,
          RDAP := if (s.cacheRead ip r0).1.2.2.1 then (s.cacheRead ip r0).1.1 else Info.empty,
          Events := (if (s.cacheRead ip r0).1.2.2.1 then (s.cacheRead ip r0).1.1
            else Info.empty).Events,
          Error := (s.store.IncrementCount ip r0.world).1.2 }, none),
        s.OnError ("rdap lookup: " ++ e) (s.afterLookup cl ip r0)) := by
  unfold ServiceImpl.servesCached ServiceImpl.consulted ServiceImpl.cacheRead
    ServiceImpl.counted at hf
  unfold ServiceImpl.lookedUp ServiceImpl.consulted ServiceImpl.cacheRead
    ServiceImpl.counted at he
  simp only [ServiceImpl.Fetch, h, ServiceImpl.counted, ServiceImpl.consulted,
    ServiceImpl.cacheRead, ServiceImpl.afterLookup, ServiceImpl.lookedUp, hf, he]
  simp

theorem Fetch_lookup_ok {σ : Type} (now : σ → Time) (s : ServiceImpl σ) (ip : String)
    (r0 : Run σ) (cl : RDAPLookup σ) (h : s.rdapClient = some cl)
    (hf : s.servesCached now ip r0 = false)
    (he : (s.lookedUp cl ip r0).1.2 = none) :
    s.Fetch now ip r0 =
      (({ IP := ip, CountCall := (s.store.IncrementCount ip r0.world).1.1,
          RDAP := (s.lookedUp cl ip r0).1.1, Events := (s.lookedUp cl ip r0).1.1.Events,
          Error := (s.store.IncrementCount ip r0.world).1.2 }, none),
        s.afterWrite now cl ip r0) := by
  unfold ServiceImpl.servesCached ServiceImpl.consulted ServiceImpl.cacheRead
    ServiceImpl.counted at hf
  unfold ServiceImpl.lookedUp ServiceImpl.consulted ServiceImpl.cacheRead
    ServiceImpl.counted at he
  simp only [ServiceImpl.Fetch, h, ServiceImpl.counted, ServiceImpl.consulted,
    ServiceImpl.cacheRead, ServiceImpl.afterLookup, ServiceImpl.lookedUp,
    ServiceImpl.afterWrite, ServiceImpl.cacheWrite, hf, he]
  simp

/-! ## Reports leave the other calls of the record alone -/

theorem OnError_filter {σ : Type} (s : ServiceImpl σ) (p : Call → Bool)
    (hp : ∀ e, p (Call.OnError e) = false) (e : Err) (r : Run σ) :
    (s.OnError e r).trace.filter p = r.trace.filter p := by
  unfold ServiceImpl.OnError
  cases s.onError <;> simp [Run.log, hp]

theorem OnErrorIf_filter {σ : Type} (s : ServiceImpl σ) (p : Call → Bool)
    (hp : ∀ e, p (Call.OnError e) = false) (err : Option Err) (r : Run σ) :
    (s.OnErrorIf err r).trace.filter p = r.trace.filter p := by
  cases err with
  | none => rfl
  | some e => exact OnError_filter s p hp e r

theorem counted_filter {σ : Type} (s : ServiceImpl σ) (p : Call → Bool)
    (hp : ∀ e, p (Call.OnError e) = false) (ip : String) (r0 : Run σ) :
    (s.counted ip r0).trace.filter p =
      r0.trace.filter p ++ [Call.IncrementCount ip (s.store.IncrementCount ip r0.world).1.1
        (s.store.IncrementCount ip r0.world).1.2].filter p := by
  unfold ServiceImpl.counted
  rw [OnErrorIf_filter s p hp]
  simp [Run.log]

theorem consulted_filter {σ : Type} (s : ServiceImpl σ) (p : Call → Bool)
    (hp : ∀ e, p (Call.OnError e) = false) (ip : String) (r0 : Run σ) :
    (s.consulted ip r0).trace.filter p =
      (s.counted ip r0).trace.filter p ++
        [Call.GetCached ip (s.cacheRead ip r0).1.1 (s.cacheRead ip r0).1.2.1
          (s.cacheRead ip r0).1.2.2.1 (s.cacheRead ip r0).1.2.2.2].filter p := by
  unfold ServiceImpl.consulted
  rw [OnErrorIf_filter s p hp]
  simp [Run.log]

theorem afterLookup_filter {σ : Type} (s : ServiceImpl σ) (p : Call → Bool)
    (cl : RDAPLookup σ) (ip : String) (r0 : Run σ) :
    (s.afterLookup cl ip r0).trace.filter p =
      (s.consulted ip r0).trace.filter p ++
        [Call.Lookup ip (s.lookedUp cl ip r0).1.1 (s.lookedUp cl ip r0).1.2].filter p := by
  simp [ServiceImpl.afterLookup, Run.log]

theorem afterWrite_filter {σ : Type} (now : σ → Time) (s : ServiceImpl σ) (p : Call → Bool)
    (hp : ∀ e, p (Call.OnError e) = false) (cl : RDAPLookup σ) (ip : String) (r0 : Run σ) :
    (s.afterWrite now cl ip r0).trace.filter p =
      (s.afterLookup cl ip r0).trace.filter p ++
        [Call.SetCached ip (s.lookedUp cl ip r0).1.1 (now (s.afterLookup cl ip r0).world)
          (s.cacheWrite now cl ip r0).1].filter p := by
  unfold ServiceImpl.afterWrite
  rw [OnErrorIf_filter s p hp]
  simp [Run.log]

/-- The four ways through `Fetch`, by the run each one leaves. -/
theorem Fetch_run_cases {σ : Type} (now : σ → Time) (s : ServiceImpl σ) (ip : String)
    (r0 : Run σ) :
    (s.rdapClient = none ∧ (s.Fetch now ip r0).2 = s.counted ip r0) ∨
    (∃ cl, s.rdapClient = some cl ∧ s.servesCached now ip r0 = true ∧
      (s.Fetch now ip r0).2 = s.consulted ip r0) ∨
    (∃ cl e, s.rdapClient = some cl ∧ s.servesCached now ip r0 = false ∧
      (s.lookedUp cl ip r0).1.2 = some e ∧
      (s.Fetch now ip r0).2 = s.OnError ("rdap lookup: " ++ e) (s.afterLookup cl ip r0)) ∨
    (∃ cl, s.rdapClient = some cl ∧ s.servesCached now ip r0 = false ∧
      (s.lookedUp cl ip r0).1.2 = none ∧
      (s.Fetch now ip r0).2 = s.afterWrite now cl ip r0) := by
  cases h : s.rdapClient with
  | none => exact Or.inl ⟨rfl, by rw [Fetch_disabled now s ip r0 h]⟩
  | some cl =>
    cases hf : s.servesCached now ip r0 with
    | true => exact Or.inr (Or.inl ⟨cl, rfl, rfl, by rw [Fetch_cached now s ip r0 cl h hf]⟩)
    | false =>
      cases he : (s.lookedUp cl ip r0).1.2 with
      | some e =>
        exact Or.inr (Or.inr (Or.inl ⟨cl, e, rfl, rfl, he,
          by rw [Fetch_lookup_failed now s ip r0 cl h hf e he]⟩))
      | none =>
        exact Or.inr (Or.inr (Or.inr ⟨cl, rfl, rfl, he,
          by rw [Fetch_lookup_ok now s ip r0 cl h hf he]⟩))

theorem Fetch_filter_IncrementCount {σ : Type} (now : σ → Time) (s : ServiceImpl σ)
    (ip : String) (r0 : Run σ) :
    (s.Fetch now ip r0).2.trace.filter Call.isIncrementCount =
      r0.trace.filter Call.isIncrementCount ++
        [Call.IncrementCount ip (s.store.IncrementCount ip r0.world).1.1
          (s.store.IncrementCount ip r0.world).1.2] := by
  have hp : ∀ e, Call.isIncrementCount (Call.OnError e) = false := fun _ => rfl
  rcases Fetch_run_cases now s ip r0 with ⟨_, h⟩ | ⟨cl, _, _, h⟩ | ⟨cl, e, _, _, _, h⟩ |
    ⟨cl, _, _, _, h⟩ <;> rw [h]
  · simp [counted_filter s _ hp, Call.isIncrementCount]
  · simp [consulted_filter s _ hp, counted_filter s _ hp, Call.isIncrementCount]
  · simp [OnError_filter s _ hp, afterLookup_filter, consulted_filter s _ hp,
      counted_filter s _ hp, Call.isIncrementCount]
  · simp [afterWrite_filter now s _ hp, afterLookup_filter, consulted_filter s _ hp,
      counted_filter s _ hp, Call.isIncrementCount]

/-! ## Counting -/

/-- What the cache, the lookup and the error handler leave unchanged is, after
`Fetch`, what `IncrementCount` left. -/
theorem Fetch_world_frame {σ α : Type} (now : σ → Time) (s : ServiceImpl σ) (f : σ → α)
    (hG : ∀ a v, f (s.store.GetCached a v).2 = f v)
    (hS : ∀ a i t v, f (s.store.SetCached a i t v).2 = f v)
    (hL : ∀ cl, s.rdapClient = some cl → ∀ a v, f (cl.Lookup a v).2 = f v)
    (hE : ∀ h, s.onError = some h → ∀ e v, f (h e v) = f v)
    (ip : String) (r0 : Run σ) :
    f (s.Fetch now ip r0).2.world = f (s.store.IncrementCount ip r0.world).2 := by
  have hOn : ∀ e r, f (s.OnError e r).world = f r.world := by
    intro e r
    unfold ServiceImpl.OnError
    cases h : s.onError with
    | none => rfl
    | some g => simpa [Run.log] using hE g h e r.world
  have hIf : ∀ err r, f (s.OnErrorIf err r).world = f r.world := by
    intro err r
    cases err with
    | none => rfl
    | some e => exact hOn e r
  have h1 : f (s.counted ip r0).world = f (s.store.IncrementCount ip r0.world).2 := by
    unfold ServiceImpl.counted
    rw [hIf]
    rfl
  have h2 : f (s.consulted ip r0).world = f (s.store.IncrementCount ip r0.world).2 := by
    unfold ServiceImpl.consulted
    rw [hIf]
    simp only [Run.log, ServiceImpl.cacheRead]
    rw [hG, h1]
  rcases Fetch_run_cases now s ip r0 with ⟨_, h⟩ | ⟨cl, _, _, h⟩ | ⟨cl, e, hc, _, _, h⟩ |
    ⟨cl, hc, _, _, h⟩ <;> rw [h]
  · exact h1
  · exact h2
  · rw [hOn]
    simp only [ServiceImpl.afterLookup, Run.log, ServiceImpl.lookedUp]
    rw [hL cl hc, h2]
  · unfold ServiceImpl.afterWrite
    rw [hIf]
    simp only [Run.log, ServiceImpl.cacheWrite]
    rw [hS]
    simp only [ServiceImpl.afterLookup, Run.log, ServiceImpl.lookedUp]
    rw [hL cl hc, h2]

theorem cacheKey_ne_countKey (a b : String) : cacheKey a ≠ countKey b := by
  intro h
  have h2 := congrArg String.data h
  simp only [cacheKey, countKey, String.data_append] at h2
  simp at h2

theorem countKey_injective (a b : String) (h : countKey a = countKey b) : a = b := by
  have h2 := congrArg String.data h
  simp only [countKey, String.data_append, List.append_cancel_left_eq] at h2
  exact String.ext h2

/-- C1: one invocation of `Fetch` calls `IncrementCount` exactly once, with the
address it was given, whatever the store, the lookup capability and the error
handler do. So for every per-address counter of the world that this call of
`IncrementCount` raises by one for its address alone, and that the cache, the
lookup and the error handler leave unchanged, the counter of the address is
one higher after `Fetch` and every other counter is as before. -/
theorem Fetch_increments_exactly_once {σ : Type} (now : σ → Time) (s : ServiceImpl σ)
    (ip : String) (w : σ) :
    (s.Fetch now ip (Run.start w)).2.trace.filter Call.isIncrementCount =
        [Call.IncrementCount ip (s.store.IncrementCount ip w).1.1
          (s.store.IncrementCount ip w).1.2] ∧
    ∀ counter : σ → String → Int,
      (∀ b, counter (s.store.IncrementCount ip w).2 b =
        if b = ip then counter w ip + 1 else counter w b) →
      (∀ a v, counter (s.store.GetCached a v).2 = counter v) →
      (∀ a i t v, counter (s.store.SetCached a i t v).2 = counter v) →
      (∀ cl, s.rdapClient = some cl → ∀ a v, counter (cl.Lookup a v).2 = counter v) →
      (∀ h, s.onError = some h → ∀ e v, counter (h e v) = counter v) →
      ∀ b, counter (s.Fetch now ip (Run.start w)).2.world b =
        if b = ip then counter w ip + 1 else counter w b := by
  refine ⟨?_, ?_⟩
  · simpa [Run.start] using Fetch_filter_IncrementCount now s ip (Run.start w)
  · intro counter hI hG hS hL hE b
    rw [Fetch_world_frame now s counter hG hS hL hE ip (Run.start w)]
    exact hI b

/-- Witness for C1: a `RedisStore` on the server in memory, where "1.2.3.4"
was counted 41 times and "5.6.7.8" 7 times; the lookup answers and its record
is written to the cache. -/
theorem Fetch_increments_exactly_once_witness :
    (memService.Fetch (fun _ => testNow) "1.2.3.4" (Run.start memWorld)).2.trace.filter
      Call.isIncrementCount = [Call.IncrementCount "1.2.3.4" 42 none] ∧
    Mem.counter (memService.Fetch (fun _ => testNow) "1.2.3.4"
      (Run.start memWorld)).2.world "1.2.3.4" = 42 ∧
    Mem.counter (memService.Fetch (fun _ => testNow) "1.2.3.4"
      (Run.start memWorld)).2.world "5.6.7.8" = 7 := by
  have hI : ∀ b, Mem.counter (memService.store.IncrementCount "1.2.3.4" memWorld).2 b =
      if b = "1.2.3.4" then Mem.counter memWorld "1.2.3.4" + 1 else Mem.counter memWorld b := by
    intro b
    have hw : (memService.store.IncrementCount "1.2.3.4" memWorld).2 =
        memWorld.put (countKey "1.2.3.4") (RedisValue.int 42) := by rfl
    rw [hw]
    by_cases hb : b = "1.2.3.4"
    · subst hb
      simp [Mem.counter, Mem.put]
      decide
    · have hk : countKey b ≠ countKey "1.2.3.4" := fun h => hb (countKey_injective _ _ h)
      simp [Mem.counter, Mem.put, hk, hb]
  have hG : ∀ (a : String) (v : Mem),
      Mem.counter (memService.store.GetCached a v).2 = Mem.counter v := by
    intro a v
    have hv : (memService.store.GetCached a v).2 = v := by
      show (RedisStore.GetCached strictJSON ⟨memRedis⟩ a v).2 = v
      unfold RedisStore.GetCached memRedis
      simp only
      cases v (cacheKey a) with
      | none => simp [redisNil]
      | some x => cases x <;> simp [strictJSON]
    rw [hv]
  have hS : ∀ (a : String) (i : Info) (t : Time) (v : Mem),
      Mem.counter (memService.store.SetCached a i t v).2 = Mem.counter v := by
    intro a i t v
    have hv : (memService.store.SetCached a i t v).2 =
        v.put (cacheKey a) (RedisValue.str "\x7b\x7d") := rfl
    rw [hv]
    funext b
    have hk : countKey b ≠ cacheKey a := fun h => cacheKey_ne_countKey a b h.symm
    simp [Mem.counter, Mem.put, hk]
  have key := (Fetch_increments_exactly_once (fun _ => testNow) memService "1.2.3.4"
    memWorld).2 Mem.counter hI hG hS
    (by
      intro cl hcl a v
      simp only [memService, NewService, Option.some.injEq] at hcl
      subst hcl
      rfl)
    (by
      intro h hh e v
      simp only [memService, NewService, Option.some.injEq] at hh
      subst hh
      rfl)
  refine ⟨?_, ?_, ?_⟩
  · rw [(Fetch_increments_exactly_once (fun _ => testNow) memService "1.2.3.4" memWorld).1]
    decide
  · rw [key "1.2.3.4"]
    decide
  · rw [key "5.6.7.8"]
    decide

/-! ## Serving from the cache -/

theorem counted_world_frame {σ α : Type} (s : ServiceImpl σ) (f : σ → α)
    (hI : ∀ a v, f (s.store.IncrementCount a v).2 = f v)
    (hE : ∀ h, s.onError = some h → ∀ e v, f (h e v) = f v) (ip : String) (r0 : Run σ) :
    f (s.counted ip r0).world = f r0.world := by
  unfold ServiceImpl.counted ServiceImpl.OnErrorIf ServiceImpl.OnError
  cases (s.store.IncrementCount ip r0.world).1.2 with
  | none => simpa [Run.log] using hI ip r0.world
  | some e =>
    cases h : s.onError with
    | none => simpa [Run.log] using hI ip r0.world
    | some g => simpa [Run.log, hE g h] using hI ip r0.world

theorem consulted_world_frame {σ α : Type} (s : ServiceImpl σ) (f : σ → α)
    (hI : ∀ a v, f (s.store.IncrementCount a v).2 = f v)
    (hG : ∀ a v, f (s.store.GetCached a v).2 = f v)
    (hE : ∀ h, s.onError = some h → ∀ e v, f (h e v) = f v) (ip : String) (r0 : Run σ) :
    f (s.consulted ip r0).world = f r0.world := by
  have h1 := counted_world_frame s f hI hE ip r0
  unfold ServiceImpl.consulted ServiceImpl.OnErrorIf ServiceImpl.OnError
  cases (s.cacheRead ip r0).1.2.2.2 with
  | none => simpa [Run.log, ServiceImpl.cacheRead, hG] using h1
  | some e =>
    cases h : s.onError with
    | none => simpa [Run.log, ServiceImpl.cacheRead, hG] using h1
    | some g => simpa [Run.log, ServiceImpl.cacheRead, hG, hE g h] using h1

/-- C3: with a lookup capability configured, when `GetCached` reports an entry
as found and `NeedsRefresh` is false for its fetched-at, `Fetch` returns the
given address, the count `IncrementCount` returned and the cached record, and
in that invocation neither `Lookup` nor `SetCached` is called. So after any
number `n` of invocations that each find such an entry, still no `Lookup` and
no `SetCached` has been called, and whatever part of the world counting,
reading the cache and reporting leave alone (the cache entry and its
fetched-at) is as it was before the first one. -/
theorem Fetch_serves_fresh_cache {σ : Type} (now : σ → Time) (s : ServiceImpl σ)
    (ip : String) (w : σ) (cl : RDAPLookup σ) (hcl : s.rdapClient = some cl) :
    ((s.cacheRead ip (Run.start w)).1.2.2.1 = true →
      NeedsRefresh (now (s.consulted ip (Run.start w)).world)
        (s.cacheRead ip (Run.start w)).1.2.1 = false →
      (s.Fetch now ip (Run.start w)).1.1.IP = ip ∧
      (s.Fetch now ip (Run.start w)).1.1.CountCall = (s.store.IncrementCount ip w).1.1 ∧
      (s.Fetch now ip (Run.start w)).1.1.RDAP = (s.cacheRead ip (Run.start w)).1.1 ∧
      (s.Fetch now ip (Run.start w)).2.trace.filter Call.isLookup = [] ∧
      (s.Fetch now ip (Run.start w)).2.trace.filter Call.isSetCached = []) ∧
    ∀ n : Nat,
      (∀ k, k < n →
        (s.cacheRead ip (s.FetchTimes now ip k (Run.start w))).1.2.2.1 = true ∧
        NeedsRefresh (now (s.consulted ip (s.FetchTimes now ip k (Run.start w))).world)
          (s.cacheRead ip (s.FetchTimes now ip k (Run.start w))).1.2.1 = false) →
      (s.FetchTimes now ip n (Run.start w)).trace.filter Call.isLookup = [] ∧
      (s.FetchTimes now ip n (Run.start w)).trace.filter Call.isSetCached = [] ∧
      ∀ (α : Type) (entry : σ → α),
        (∀ a v, entry (s.store.IncrementCount a v).2 = entry v) →
        (∀ a v, entry (s.store.GetCached a v).2 = entry v) →
        (∀ h, s.onError = some h → ∀ e v, entry (h e v) = entry v) →
        entry (s.FetchTimes now ip n (Run.start w)).world = entry w := by
  have hserve : ∀ r : Run σ, (s.cacheRead ip r).1.2.2.1 = true →
      NeedsRefresh (now (s.consulted ip r).world) (s.cacheRead ip r).1.2.1 = false →
      s.servesCached now ip r = true := by
    intro r h1 h2
    simp [ServiceImpl.servesCached, h1, h2]
  have hL : ∀ e, Call.isLookup (Call.OnError e) = false := fun _ => rfl
  have hS : ∀ e, Call.isSetCached (Call.OnError e) = false := fun _ => rfl
  refine ⟨?_, ?_⟩
  · intro h1 h2
    have hf := Fetch_cached now s ip (Run.start w) cl hcl (hserve _ h1 h2)
    rw [hf]
    refine ⟨rfl, rfl, rfl, ?_, ?_⟩
    · simp [consulted_filter s _ hL, counted_filter s _ hL, Call.isLookup, Run.start]
    · simp [consulted_filter s _ hS, counted_filter s _ hS, Call.isSetCached, Run.start]
  · intro n
    induction n with
    | zero =>
      intro _
      exact ⟨rfl, rfl, fun _ _ _ _ _ => rfl⟩
    | succ n ih =>
      intro hn
      obtain ⟨ihL, ihS, ihW⟩ := ih (fun k hk => hn k (Nat.lt_succ_of_lt hk))
      obtain ⟨h1, h2⟩ := hn n (Nat.lt_succ_self n)
      have hf := Fetch_cached now s ip (s.FetchTimes now ip n (Run.start w)) cl hcl
        (hserve _ h1 h2)
      have hrun : s.FetchTimes now ip (n + 1) (Run.start w) =
          s.consulted ip (s.FetchTimes now ip n (Run.start w)) := by
        show (s.Fetch now ip (s.FetchTimes now ip n (Run.start w))).2 = _
        rw [hf]
      rw [hrun]
      refine ⟨?_, ?_, ?_⟩
      · simp [consulted_filter s _ hL, counted_filter s _ hL, Call.isLookup, ihL]
      · simp [consulted_filter s _ hS, counted_filter s _ hS, Call.isSetCached, ihS]
      · intro α entry hI hG hE
        rw [consulted_world_frame s entry hI hG hE]
        exact ihW α entry hI hG hE

/-- Witness for C3: the service of `TestServiceImpl_Fetch`, asked for "1.2.3.4"
once and then three times in a row. -/
theorem Fetch_serves_fresh_cache_witness :
    ((testService.Fetch id "1.2.3.4" (Run.start testNow)).1.1.IP = "1.2.3.4" ∧
      (testService.Fetch id "1.2.3.4" (Run.start testNow)).1.1.CountCall = 1 ∧
      (testService.Fetch id "1.2.3.4" (Run.start testNow)).1.1.RDAP =
        ⟨"US", "", "", "", "", []⟩ ∧
      (testService.Fetch id "1.2.3.4" (Run.start testNow)).2.trace.filter Call.isLookup = [] ∧
      (testService.Fetch id "1.2.3.4" (Run.start testNow)).2.trace.filter
        Call.isSetCached = []) ∧
    (testService.FetchTimes id "1.2.3.4" 3 (Run.start testNow)).trace.filter
      Call.isLookup = [] ∧
    (testService.FetchTimes id "1.2.3.4" 3 (Run.start testNow)).world = testNow := by
  have hfresh : ∀ t : Time, t = testNow → NeedsRefresh t t = false := by
    intro t ht
    subst ht
    decide
  have key := Fetch_serves_fresh_cache id testService "1.2.3.4" testNow testLookup rfl
  have hworld : ∀ k, (testService.FetchTimes id "1.2.3.4" k (Run.start testNow)).world
      = testNow := by
    intro k
    induction k with
    | zero => rfl
    | succ k ih =>
      show (testService.Fetch id "1.2.3.4" _).2.world = testNow
      rw [Fetch_world_frame id testService (fun v => v) (fun _ _ => rfl) (fun _ _ _ _ => rfl)
        (by
          intro cl hc a v
          simp only [testService, NewService, Option.some.injEq] at hc
          subst hc
          rfl)
        (by
          intro h hh e v
          simp only [testService, NewService, Option.some.injEq] at hh
          subst hh
          rfl)]
      exact ih
  have hthree := key.2 3 (by
    intro k _
    refine ⟨rfl, ?_⟩
    have hc : (testService.consulted "1.2.3.4"
        (testService.FetchTimes id "1.2.3.4" k (Run.start testNow))).world = testNow := by
      simpa using consulted_world_frame testService (fun v => v) (fun _ _ => rfl)
        (fun _ _ => rfl)
        (by
          intro h hh e v
          simp only [testService, NewService, Option.some.injEq] at hh
          subst hh
          rfl) "1.2.3.4" (testService.FetchTimes id "1.2.3.4" k (Run.start testNow))
        |>.trans (hworld k)
    have hr : (testService.cacheRead "1.2.3.4"
        (testService.FetchTimes id "1.2.3.4" k (Run.start testNow))).1.2.1 = testNow := by
      show (testService.counted "1.2.3.4" _).world = testNow
      exact (counted_world_frame testService (fun v => v) (fun _ _ => rfl)
        (by
          intro h hh e v
          simp only [testService, NewService, Option.some.injEq] at hh
          subst hh
          rfl) "1.2.3.4" _).trans (hworld k)
    rw [hr]
    simp only [id]
    rw [hc]
    exact hfresh _ rfl)
  exact ⟨key.1 rfl (by decide), hthree.1,
    hthree.2.2 Time (fun v => v) (fun _ _ => rfl) (fun _ _ => rfl)
      (by
        intro h hh e v
        simp only [testService, NewService, Option.some.injEq] at hh
        subst hh
        rfl)⟩

/-! ## When the lookup is called -/

theorem OnError_world_frame {σ α : Type} (s : ServiceImpl σ) (f : σ → α)
    (hE : ∀ h, s.onError = some h → ∀ e v, f (h e v) = f v) (e : Err) (r : Run σ) :
    f (s.OnError e r).world = f r.world := by
  unfold ServiceImpl.OnError
  cases h : s.onError with
  | none => rfl
  | some g => simpa [Run.log] using hE g h e r.world

theorem Run.start_trace {σ : Type} (w : σ) : (Run.start w).trace = [] := rfl

theorem Run.start_world {σ : Type} (w : σ) : (Run.start w).world = w := rfl

/-- The calls of `Lookup` in the record of one `Fetch`. -/
theorem Fetch_filter_Lookup {σ : Type} (now : σ → Time) (s : ServiceImpl σ)
    (ip : String) (w : σ) :
    (s.Fetch now ip (Run.start w)).2.trace.filter Call.isLookup =
      match s.rdapClient with
      | none => []
      | some cl =>
        if s.servesCached now ip (Run.start w) then []
        else [Call.Lookup ip (s.lookedUp cl ip (Run.start w)).1.1
          (s.lookedUp cl ip (Run.start w)).1.2] := by
  have hp : ∀ e, Call.isLookup (Call.OnError e) = false := fun _ => rfl
  rcases Fetch_run_cases now s ip (Run.start w) with ⟨hc, h⟩ | ⟨cl, hc, hf, h⟩ |
    ⟨cl, e, hc, hf, _, h⟩ | ⟨cl, hc, hf, _, h⟩ <;> rw [h, hc]
  · simp [counted_filter s _ hp, Call.isLookup, Run.start_trace]
  · simp [consulted_filter s _ hp, counted_filter s _ hp, Call.isLookup, Run.start_trace, hf]
  · simp [OnError_filter s _ hp, afterLookup_filter, consulted_filter s _ hp,
      counted_filter s _ hp, Call.isLookup, Run.start_trace, hf]
  · simp [afterWrite_filter now s _ hp, afterLookup_filter, consulted_filter s _ hp,
      counted_filter s _ hp, Call.isLookup, Run.start_trace, hf]

/-- The calls of `GetCached` in the record of one `Fetch`. -/
theorem Fetch_filter_GetCached {σ : Type} (now : σ → Time) (s : ServiceImpl σ)
    (ip : String) (w : σ) :
    (s.Fetch now ip (Run.start w)).2.trace.filter Call.isGetCached =
      match s.rdapClient with
      | none => []
      | some _ =>
        [Call.GetCached ip (s.cacheRead ip (Run.start w)).1.1
          (s.cacheRead ip (Run.start w)).1.2.1 (s.cacheRead ip (Run.start w)).1.2.2.1
          (s.cacheRead ip (Run.start w)).1.2.2.2] := by
  have hp : ∀ e, Call.isGetCached (Call.OnError e) = false := fun _ => rfl
  rcases Fetch_run_cases now s ip (Run.start w) with ⟨hc, h⟩ | ⟨cl, hc, hf, h⟩ |
    ⟨cl, e, hc, hf, _, h⟩ | ⟨cl, hc, hf, _, h⟩ <;> rw [h, hc]
  · simp [counted_filter s _ hp, Call.isGetCached, Run.start_trace]
  · simp [consulted_filter s _ hp, counted_filter s _ hp, Call.isGetCached, Run.start_trace]
  · simp [OnError_filter s _ hp, afterLookup_filter, consulted_filter s _ hp,
      counted_filter s _ hp, Call.isGetCached, Run.start_trace]
  · simp [afterWrite_filter now s _ hp, afterLookup_filter, consulted_filter s _ hp,
      counted_filter s _ hp, Call.isGetCached, Run.start_trace]

/-- The calls of `SetCached` in the record of one `Fetch`. -/
theorem Fetch_filter_SetCached {σ : Type} (now : σ → Time) (s : ServiceImpl σ)
    (ip : String) (w : σ) :
    (s.Fetch now ip (Run.start w)).2.trace.filter Call.isSetCached =
      match s.rdapClient with
      | none => []
      | some cl =>
        if s.servesCached now ip (Run.start w) then []
        else
          match (s.lookedUp cl ip (Run.start w)).1.2 with
          | some _ => []
          | none =>
            [Call.SetCached ip (s.lookedUp cl ip (Run.start w)).1.1
              (now (s.lookedUp cl ip (Run.start w)).2)
              (s.cacheWrite now cl ip (Run.start w)).1] := by
  have hp : ∀ e, Call.isSetCached (Call.OnError e) = false := fun _ => rfl
  rcases Fetch_run_cases now s ip (Run.start w) with ⟨hc, h⟩ | ⟨cl, hc, hf, h⟩ |
    ⟨cl, e, hc, hf, he, h⟩ | ⟨cl, hc, hf, he, h⟩ <;> rw [h, hc]
  · simp [counted_filter s _ hp, Call.isSetCached, Run.start_trace]
  · simp [consulted_filter s _ hp, counted_filter s _ hp, Call.isSetCached, Run.start_trace, hf]
  · simp [OnError_filter s _ hp, afterLookup_filter, consulted_filter s _ hp,
      counted_filter s _ hp, Call.isSetCached, Run.start_trace, hf, he]
  · simp [afterWrite_filter now s _ hp, afterLookup_filter, consulted_filter s _ hp,
      counted_filter s _ hp, Call.isSetCached, Run.start_trace, hf, he]
    simp [ServiceImpl.afterLookup, Run.log]

/-- C4: when, in one invocation of `Fetch`, `Lookup` is called and returns an
error, the record of the Response is the record `GetCached` returned if it
reported an entry as found, whatever its fetched-at, and the empty record
otherwise; `SetCached` is not called in that invocation, and whatever part of
the world counting, reading the cache, the lookup and reporting leave alone
(the cache entry) is as it was before. -/
theorem Fetch_failed_lookup_falls_back {σ : Type} (now : σ → Time) (s : ServiceImpl σ)
    (ip : String) (w : σ) (info : Info) (e : Err)
    (h : Call.Lookup ip info (some e) ∈ (s.Fetch now ip (Run.start w)).2.trace) :
    (s.Fetch now ip (Run.start w)).2.trace.filter Call.isGetCached =
      [Call.GetCached ip (s.cacheRead ip (Run.start w)).1.1
        (s.cacheRead ip (Run.start w)).1.2.1 (s.cacheRead ip (Run.start w)).1.2.2.1
        (s.cacheRead ip (Run.start w)).1.2.2.2] ∧
    (s.Fetch now ip (Run.start w)).1.1.RDAP =
      (if (s.cacheRead ip (Run.start w)).1.2.2.1 = true then (s.cacheRead ip (Run.start w)).1.1
        else Info.empty) ∧
    (s.Fetch now ip (Run.start w)).2.trace.filter Call.isSetCached = [] ∧
    ∀ (α : Type) (entry : σ → α),
      (∀ a v, entry (s.store.IncrementCount a v).2 = entry v) →
      (∀ a v, entry (s.store.GetCached a v).2 = entry v) →
      (∀ cl, s.rdapClient = some cl → ∀ a v, entry (cl.Lookup a v).2 = entry v) →
      (∀ g, s.onError = some g → ∀ e v, entry (g e v) = entry v) →
      entry (s.Fetch now ip (Run.start w)).2.world = entry w := by
  have hm : Call.Lookup ip info (some e) ∈
      (s.Fetch now ip (Run.start w)).2.trace.filter Call.isLookup :=
    List.mem_filter.mpr ⟨h, rfl⟩
  have hG := Fetch_filter_GetCached now s ip w
  have hS := Fetch_filter_SetCached now s ip w
  rw [Fetch_filter_Lookup now s ip w] at hm
  cases hc : s.rdapClient with
  | none => simp [hc] at hm
  | some cl =>
    cases hf : s.servesCached now ip (Run.start w) with
    | true => simp [hc, hf] at hm
    | false =>
      simp only [hc, hf, Bool.false_eq_true, if_false, List.mem_singleton,
        Call.Lookup.injEq, true_and] at hm
      have he : (s.lookedUp cl ip (Run.start w)).1.2 = some e := hm.2.symm
      simp only [hc] at hG
      simp only [hc, hf, he, Bool.false_eq_true, if_false] at hS
      refine ⟨hG, ?_, hS, ?_⟩
      · rw [Fetch_lookup_failed now s ip (Run.start w) cl hc hf e he]
      · intro α entry hI hGet hL hE
        rw [Fetch_lookup_failed now s ip (Run.start w) cl hc hf e he]
        rw [OnError_world_frame s entry hE]
        simp only [ServiceImpl.afterLookup, Run.log, ServiceImpl.lookedUp]
        rw [hL cl rfl, consulted_world_frame s entry hI hGet hE]
        rfl

/-- Witness for C4: the cache holds the record of country "US" fetched 30 hours
ago and the lookup fails; the Response carries that record. -/
theorem Fetch_failed_lookup_falls_back_witness :
    Call.Lookup "1.2.3.4" Info.empty (some "lookupFunc is not set") ∈
      ((NewService staleStore (some testLookup) none).Fetch id "1.2.3.4"
        (Run.start testNow)).2.trace ∧
    ((NewService staleStore (some testLookup) none).Fetch id "1.2.3.4"
      (Run.start testNow)).1.1.RDAP = ⟨"US", "", "", "", "", []⟩ ∧
    ((NewService staleStore (some testLookup) none).Fetch id "1.2.3.4"
      (Run.start testNow)).2.trace.filter Call.isSetCached = [] :=
  have h : Call.Lookup "1.2.3.4" Info.empty (some "lookupFunc is not set") ∈
      ((NewService staleStore (some testLookup) none).Fetch id "1.2.3.4"
        (Run.start testNow)).2.trace := by decide
  ⟨h, (Fetch_failed_lookup_falls_back id (NewService staleStore (some testLookup) none)
      "1.2.3.4" testNow Info.empty "lookupFunc is not set" h).2.1,
    (Fetch_failed_lookup_falls_back id (NewService staleStore (some testLookup) none)
      "1.2.3.4" testNow Info.empty "lookupFunc is not set" h).2.2.1⟩

/-- C5: with a lookup capability configured, when the cache read found no
entry or found one that needs refresh, and `Lookup` returns the record `R`
without error, `Fetch` calls `Lookup` once and `SetCached` exactly once, with
the address, with `R` and with the reading of the clock after the lookup, and
the record of the Response is `R`, whatever `SetCached` returns. -/
theorem Fetch_stores_successful_lookup {σ : Type} (now : σ → Time) (s : ServiceImpl σ)
    (ip : String) (w : σ) (cl : RDAPLookup σ) (R : Info) (hcl : s.rdapClient = some cl)
    (hstale : (s.cacheRead ip (Run.start w)).1.2.2.1 = false ∨
      NeedsRefresh (now (s.consulted ip (Run.start w)).world)
        (s.cacheRead ip (Run.start w)).1.2.1 = true)
    (hok : (s.lookedUp cl ip (Run.start w)).1 = (R, none)) :
    (s.Fetch now ip (Run.start w)).2.trace.filter Call.isLookup = [Call.Lookup ip R none] ∧
    (s.Fetch now ip (Run.start w)).2.trace.filter Call.isSetCached =
      [Call.SetCached ip R (now (s.lookedUp cl ip (Run.start w)).2)
        (s.store.SetCached ip R (now (s.lookedUp cl ip (Run.start w)).2)
          (s.lookedUp cl ip (Run.start w)).2).1] ∧
    (s.Fetch now ip (Run.start w)).1.1.RDAP = R ∧
    (s.Fetch now ip (Run.start w)).1.1.Events = R.Events := by
  have hf : s.servesCached now ip (Run.start w) = false := by
    unfold ServiceImpl.servesCached
    rcases hstale with h | h <;> simp [h]
  have h1 : (s.lookedUp cl ip (Run.start w)).1.1 = R := by rw [hok]
  have h2 : (s.lookedUp cl ip (Run.start w)).1.2 = none := by rw [hok]
  have hL := Fetch_filter_Lookup now s ip w
  have hS := Fetch_filter_SetCached now s ip w
  simp only [hcl, hf, h1, h2, Bool.false_eq_true, if_false] at hL hS
  have hw : (s.cacheWrite now cl ip (Run.start w)).1 =
      (s.store.SetCached ip R (now (s.lookedUp cl ip (Run.start w)).2)
        (s.lookedUp cl ip (Run.start w)).2).1 := by
    simp [ServiceImpl.cacheWrite, h1, ServiceImpl.afterLookup, Run.log]
  rw [hw] at hS
  refine ⟨hL, hS, ?_, ?_⟩
  · rw [Fetch_lookup_ok now s ip (Run.start w) cl hcl hf h2]
    exact h1
  · rw [Fetch_lookup_ok now s ip (Run.start w) cl hcl hf h2]
    show (s.lookedUp cl ip (Run.start w)).1.1.Events = R.Events
    rw [h1]

/-- Witness for C5: the cache holds a record fetched 30 hours ago, the lookup
returns a new record and the write to the cache fails. -/
theorem Fetch_stores_successful_lookup_witness :
    ((NewService staleStore (some netLookup) none).Fetch id "1.2.3.4"
      (Run.start testNow)).2.trace.filter Call.isSetCached =
        [Call.SetCached "1.2.3.4" ⟨"US", "", "", "TEST-NET", "", []⟩ testNow
          (some "set cache: connection refused")] ∧
    ((NewService staleStore (some netLookup) none).Fetch id "1.2.3.4"
      (Run.start testNow)).1.1.RDAP = ⟨"US", "", "", "TEST-NET", "", []⟩ :=
  ⟨(Fetch_stores_successful_lookup id (NewService staleStore (some netLookup) none) "1.2.3.4"
      testNow netLookup ⟨"US", "", "", "TEST-NET", "", []⟩ rfl (Or.inr (by decide)) rfl).2.1,
    (Fetch_stores_successful_lookup id (NewService staleStore (some netLookup) none) "1.2.3.4"
      testNow netLookup ⟨"US", "", "", "TEST-NET", "", []⟩ rfl (Or.inr (by decide)) rfl).2.2.1⟩

/-! ## Lookup disabled -/

/-- C6: a service built by `NewService` with no lookup capability returns, for
every address, a nil error and a Response with the empty record, no events
and the count `IncrementCount` returned, whose error field holds what
`IncrementCount` returned as its error; it calls neither `GetCached` nor
`SetCached`, and nothing but `IncrementCount` and, if that failed, the error
handler. -/
theorem Fetch_without_lookup {σ : Type} (now : σ → Time) (store : Store σ)
    (errorHandler : Option (Err → σ → σ)) (ip : String) (w : σ) :
    ((NewService store none errorHandler).Fetch now ip (Run.start w)).1.2 = none ∧
    ((NewService store none errorHandler).Fetch now ip (Run.start w)).1.1.RDAP = Info.empty ∧
    ((NewService store none errorHandler).Fetch now ip (Run.start w)).1.1.Events = [] ∧
    ((NewService store none errorHandler).Fetch now ip (Run.start w)).1.1.CountCall =
      (store.IncrementCount ip w).1.1 ∧
    ((NewService store none errorHandler).Fetch now ip (Run.start w)).1.1.Error =
      (store.IncrementCount ip w).1.2 ∧
    ((NewService store none errorHandler).Fetch now ip (Run.start w)).2.trace.filter
      Call.isGetCached = [] ∧
    ((NewService store none errorHandler).Fetch now ip (Run.start w)).2.trace.filter
      Call.isSetCached = [] ∧
    ((NewService store none errorHandler).Fetch now ip (Run.start w)).2.trace =
      Call.IncrementCount ip (store.IncrementCount ip w).1.1 (store.IncrementCount ip w).1.2 ::
        (match (store.IncrementCount ip w).1.2 with
          | some e => [Call.OnError e]
          | none => []) := by
  have hG := Fetch_filter_GetCached now (NewService store none errorHandler) ip w
  have hS := Fetch_filter_SetCached now (NewService store none errorHandler) ip w
  refine ⟨rfl, rfl, rfl, rfl, rfl, hG, hS, ?_⟩
  rw [Fetch_disabled now (NewService store none errorHandler) ip (Run.start w) rfl]
  simp only [ServiceImpl.counted, NewService, Run.start, Run.log]
  cases h : (store.IncrementCount ip w).1.2 <;>
    simp [ServiceImpl.OnErrorIf, ServiceImpl.OnError, Run.log]

/-! ## A failed count does not change how the record is resolved -/

theorem OnErrorIf_world_congr {σ : Type} (s s' : ServiceImpl σ) (hE : s'.onError = s.onError)
    (err : Option Err) (r r' : Run σ) (h : r'.world = r.world) :
    (s'.OnErrorIf err r').world = (s.OnErrorIf err r).world := by
  unfold ServiceImpl.OnErrorIf ServiceImpl.OnError
  rw [hE]
  cases err with
  | none => exact h
  | some e =>
    cases s.onError with
    | none => exact h
    | some g => simp [Run.log, h]

/-- What `Fetch` does after counting depends on the world counting left, not
on how counting went. -/
theorem Fetch_resolution_congr {σ : Type} (now : σ → Time) (s s' : ServiceImpl σ)
    (ip : String) (r r' : Run σ)
    (hG : s'.store.GetCached = s.store.GetCached)
    (hS : s'.store.SetCached = s.store.SetCached)
    (hC : s'.rdapClient = s.rdapClient) (hE : s'.onError = s.onError)
    (hw : (s'.counted ip r').world = (s.counted ip r).world)
    (ht : (s'.counted ip r').trace.filter Call.isResolution =
      (s.counted ip r).trace.filter Call.isResolution) :
    (s'.Fetch now ip r').1.1.RDAP = (s.Fetch now ip r).1.1.RDAP ∧
    (s'.Fetch now ip r').2.world = (s.Fetch now ip r).2.world ∧
    (s'.Fetch now ip r').2.trace.filter Call.isResolution =
      (s.Fetch now ip r).2.trace.filter Call.isResolution := by
  have hp : ∀ e, Call.isResolution (Call.OnError e) = false := fun _ => rfl
  have hread : s'.cacheRead ip r' = s.cacheRead ip r := by
    unfold ServiceImpl.cacheRead
    rw [hG, hw]
  have hcw : (s'.consulted ip r').world = (s.consulted ip r).world := by
    unfold ServiceImpl.consulted
    rw [hread]
    exact OnErrorIf_world_congr s s' hE _ _ _ rfl
  have hct : (s'.consulted ip r').trace.filter Call.isResolution =
      (s.consulted ip r).trace.filter Call.isResolution := by
    rw [consulted_filter s' _ hp, consulted_filter s _ hp, ht, hread]
  have hserve : s'.servesCached now ip r' = s.servesCached now ip r := by
    unfold ServiceImpl.servesCached
    rw [hread, hcw]
  have hlook : ∀ cl, s'.lookedUp cl ip r' = s.lookedUp cl ip r := by
    intro cl
    unfold ServiceImpl.lookedUp
    rw [hcw]
  have halw : ∀ cl, (s'.afterLookup cl ip r').world = (s.afterLookup cl ip r).world := by
    intro cl
    simp only [ServiceImpl.afterLookup, Run.log, hlook cl]
  have halt : ∀ cl, (s'.afterLookup cl ip r').trace.filter Call.isResolution =
      (s.afterLookup cl ip r).trace.filter Call.isResolution := by
    intro cl
    rw [afterLookup_filter s', afterLookup_filter s, hct, hlook cl]
  have hwrite : ∀ cl, s'.cacheWrite now cl ip r' = s.cacheWrite now cl ip r := by
    intro cl
    unfold ServiceImpl.cacheWrite
    rw [hS, hlook cl, halw cl]
  have haww : ∀ cl, (s'.afterWrite now cl ip r').world = (s.afterWrite now cl ip r).world := by
    intro cl
    unfold ServiceImpl.afterWrite
    rw [hwrite cl]
    exact OnErrorIf_world_congr s s' hE _ _ _ rfl
  have hawt : ∀ cl, (s'.afterWrite now cl ip r').trace.filter Call.isResolution =
      (s.afterWrite now cl ip r).trace.filter Call.isResolution := by
    intro cl
    rw [afterWrite_filter now s' _ hp, afterWrite_filter now s _ hp, halt cl, hlook cl,
      halw cl, hwrite cl]
  cases hc : s.rdapClient with
  | none =>
    rw [Fetch_disabled now s ip r hc, Fetch_disabled now s' ip r' (hC.trans hc)]
    exact ⟨rfl, hw, ht⟩
  | some cl =>
    have hc' : s'.rdapClient = some cl := hC.trans hc
    cases hf : s.servesCached now ip r with
    | true =>
      rw [Fetch_cached now s ip r cl hc hf,
        Fetch_cached now s' ip r' cl hc' (hserve.trans hf)]
      exact ⟨by rw [hread], hcw, hct⟩
    | false =>
      cases he : (s.lookedUp cl ip r).1.2 with
      | some e =>
        rw [Fetch_lookup_failed now s ip r cl hc hf e he,
          Fetch_lookup_failed now s' ip r' cl hc' (hserve.trans hf) e
            ((congrArg (fun x => x.1.2) (hlook cl)).trans he)]
        refine ⟨by rw [hread], ?_, ?_⟩
        · exact OnErrorIf_world_congr s s' hE (some ("rdap lookup: " ++ e)) _ _ (halw cl)
        · rw [OnError_filter s' _ hp, OnError_filter s _ hp, halt cl]
      | none =>
        rw [Fetch_lookup_ok now s ip r cl hc hf he,
          Fetch_lookup_ok now s' ip r' cl hc' (hserve.trans hf)
            ((congrArg (fun x => x.1.2) (hlook cl)).trans he)]
        exact ⟨by rw [hlook cl], haww cl, hawt cl⟩

/-- C7, as stated, fails: `Fetch` passes on the count that comes back with an
error of `IncrementCount`. With a store that returns the count 5 together with
an error, the Response carries the call-count 5, not 0. -/
theorem Fetch_passes_on_count_with_error :
    (miscountingStore.IncrementCount "1.2.3.4" testNow).1.2 =
      some "increment count: i/o timeout" ∧
    ((NewService miscountingStore (some netLookup) none).Fetch id "1.2.3.4"
      (Run.start testNow)).1.1.CountCall = 5 ∧
    ((NewService miscountingStore (some netLookup) none).Fetch id "1.2.3.4"
      (Run.start testNow)).1.1.CountCall ≠ 0 := by
  refine ⟨rfl, ?_, ?_⟩ <;> decide

/-- C7, amended: when `IncrementCount` returns an error, `Fetch` still returns a nil
error and a Response; its record, the world it leaves and its calls to the
cache and to the lookup are those of the same service with an `IncrementCount`
that succeeds (with any count `n`) and leaves the world the failed one and its
report left. The call-count of the Response is the count the store returned
with the error, and that is 0 for `RedisStore`, whatever the Redis client
does. -/
theorem Fetch_continues_after_count_failure {σ : Type} (now : σ → Time) :
    (∀ (s : ServiceImpl σ) (ip : String) (w : σ) (e : Err),
      (s.store.IncrementCount ip w).1.2 = some e →
      (s.Fetch now ip (Run.start w)).1.2 = none ∧
      (s.Fetch now ip (Run.start w)).1.1.CountCall = (s.store.IncrementCount ip w).1.1 ∧
      ∀ n : Int,
        (s.Fetch now ip (Run.start w)).1.1.RDAP =
          ((s.countingAs n (s.counted ip (Run.start w)).world).Fetch now ip
            (Run.start w)).1.1.RDAP ∧
        (s.Fetch now ip (Run.start w)).2.world =
          ((s.countingAs n (s.counted ip (Run.start w)).world).Fetch now ip
            (Run.start w)).2.world ∧
        (s.Fetch now ip (Run.start w)).2.trace.filter Call.isResolution =
          ((s.countingAs n (s.counted ip (Run.start w)).world).Fetch now ip
            (Run.start w)).2.trace.filter Call.isResolution) ∧
    (∀ (json : JSON) (rs : RedisStore σ) (rdapClient : Option (RDAPLookup σ))
      (errorHandler : Option (Err → σ → σ)) (ip : String) (w : σ) (e : Err),
      (rs.client.Incr (countKey ip) w).1.2 = some e →
      ((rs.toStore json).IncrementCount ip w).1.2 = some ("increment count: " ++ e) ∧
      ((NewService (rs.toStore json) rdapClient errorHandler).Fetch now ip
        (Run.start w)).1.1.CountCall = 0) := by
  have hp : ∀ e, Call.isResolution (Call.OnError e) = false := fun _ => rfl
  refine ⟨?_, ?_⟩
  · intro s ip w e _
    refine ⟨rfl, rfl, ?_⟩
    intro n
    have h := Fetch_resolution_congr now
      (s.countingAs n (s.counted ip (Run.start w)).world) s ip (Run.start w) (Run.start w)
      rfl rfl rfl rfl rfl
      (by
        rw [counted_filter s _ hp, counted_filter _ _ hp]
        simp [Call.isResolution, Call.isGetCached, Call.isSetCached, Call.isLookup])
    exact h
  · intro json rs rdapClient errorHandler ip w e he
    have h1 : ((rs.toStore json).IncrementCount ip w).1 = (0, some ("increment count: " ++ e)) := by
      simp [RedisStore.toStore, RedisStore.IncrementCount, he]
    refine ⟨by rw [h1], ?_⟩
    show ((rs.toStore json).IncrementCount ip w).1.1 = 0
    rw [h1]

/-- Witness for C7: a `RedisStore` whose server cannot be reached, with a
lookup that answers. -/
theorem Fetch_continues_after_count_failure_witness :
    ((RedisStore.toStore strictJSON ⟨downRedis⟩).IncrementCount "1.2.3.4" testNow).1.2 =
      some "increment count: dial tcp: connection refused" ∧
    ((NewService (RedisStore.toStore strictJSON ⟨downRedis⟩) (some netLookup) none).Fetch id
      "1.2.3.4" (Run.start testNow)).1.1.CountCall = 0 ∧
    ((NewService (RedisStore.toStore strictJSON ⟨downRedis⟩) (some netLookup) none).Fetch id
      "1.2.3.4" (Run.start testNow)).1.1.RDAP =
      (((NewService (RedisStore.toStore strictJSON ⟨downRedis⟩) (some netLookup) none).countingAs 1
        testNow).Fetch id "1.2.3.4" (Run.start testNow)).1.1.RDAP :=
  ⟨((Fetch_continues_after_count_failure id).2 strictJSON ⟨downRedis⟩ (some netLookup) none
      "1.2.3.4" testNow "dial tcp: connection refused" rfl).1,
    ((Fetch_continues_after_count_failure id).2 strictJSON ⟨downRedis⟩ (some netLookup) none
      "1.2.3.4" testNow "dial tcp: connection refused" rfl).2,
    (((Fetch_continues_after_count_failure id).1
      (NewService (RedisStore.toStore strictJSON ⟨downRedis⟩) (some netLookup) none)
      "1.2.3.4" testNow "increment count: dial tcp: connection refused" rfl).2.2 1).1⟩

/-! ## Where errors go -/

theorem mem_OnError_trace {σ : Type} (s : ServiceImpl σ) (e : Err) (r : Run σ) (c : Call)
    (h : c ∈ r.trace) : c ∈ (s.OnError e r).trace := by
  unfold ServiceImpl.OnError
  cases s.onError <;> simp [Run.log, h]

theorem mem_OnErrorIf_trace {σ : Type} (s : ServiceImpl σ) (err : Option Err) (r : Run σ)
    (c : Call) (h : c ∈ r.trace) : c ∈ (s.OnErrorIf err r).trace := by
  cases err with
  | none => exact h
  | some e => exact mem_OnError_trace s e r c h

theorem OnError_reports {σ : Type} (s : ServiceImpl σ) (g : Err → σ → σ)
    (hg : s.onError = some g) (e : Err) (r : Run σ) :
    Call.OnError e ∈ (s.OnError e r).trace := by
  unfold ServiceImpl.OnError
  rw [hg]
  simp [Run.log]

/-- With an error handler set, the error of the cache read is reported before
`Fetch` goes on. -/
theorem consulted_reports {σ : Type} (s : ServiceImpl σ) (g : Err → σ → σ)
    (hg : s.onError = some g) (ip : String) (r : Run σ) (e : Err)
    (he : (s.cacheRead ip r).1.2.2.2 = some e) :
    Call.OnError e ∈ (s.consulted ip r).trace := by
  unfold ServiceImpl.consulted
  rw [he]
  exact OnError_reports s g hg e _

/-- Every call made up to the cache read is in the record `Fetch` leaves, when
a lookup capability is configured. -/
theorem consulted_trace_kept {σ : Type} (now : σ → Time) (s : ServiceImpl σ) (ip : String)
    (r : Run σ) (cl : RDAPLookup σ) (hc : s.rdapClient = some cl) (c : Call)
    (h : c ∈ (s.consulted ip r).trace) : c ∈ (s.Fetch now ip r).2.trace := by
  have hal : c ∈ (s.afterLookup cl ip r).trace := by
    simp [ServiceImpl.afterLookup, Run.log, h]
  cases hf : s.servesCached now ip r with
  | true =>
    rw [Fetch_cached now s ip r cl hc hf]
    exact h
  | false =>
    cases he : (s.lookedUp cl ip r).1.2 with
    | some e =>
      rw [Fetch_lookup_failed now s ip r cl hc hf e he]
      exact mem_OnError_trace s _ _ c hal
    | none =>
      rw [Fetch_lookup_ok now s ip r cl hc hf he]
      unfold ServiceImpl.afterWrite
      apply mem_OnErrorIf_trace
      simp [Run.log, hal]

theorem failure_IncrementCount (ip : String) (n : Int) (err : Option Err) :
    Call.failure (Call.IncrementCount ip n err) = err := by
  cases err <;> rfl

theorem failure_GetCached (ip : String) (c : Info) (t : Time) (ok : Bool) (err : Option Err) :
    Call.failure (Call.GetCached ip c t ok err) = err := by
  cases err <;> rfl

theorem failure_SetCached (ip : String) (i : Info) (t : Time) (err : Option Err) :
    Call.failure (Call.SetCached ip i t err) = err := by
  cases err <;> rfl

/-- One operation and the report of its error: when the handler appends what
it is given to what the sink holds, and the operation leaves the sink alone,
the sink still holds the errors of the failed calls of the record, in order. -/
theorem sink_step {σ : Type} (s : ServiceImpl σ) (g : Err → σ → σ) (hg : s.onError = some g)
    (received : σ → List Err) (hE : ∀ e v, received (g e v) = received v ++ [e])
    (base : List Err) (r : Run σ) (c : Call) (v : σ) (err : Option Err)
    (hc : Call.failure c = err) (hv : received v = received r.world)
    (hinv : received r.world = base ++ r.trace.filterMap Call.failure) :
    received (s.OnErrorIf err (r.log c v)).world =
      base ++ (s.OnErrorIf err (r.log c v)).trace.filterMap Call.failure := by
  cases err with
  | none =>
    simp [ServiceImpl.OnErrorIf, Run.log, List.filterMap_append, hc, hv, hinv]
  | some e =>
    have hl : List.filterMap Call.failure [c, Call.OnError e] = [e] := by
      have h0 : Call.failure (Call.OnError e) = none := rfl
      simp [List.filterMap_cons, hc, h0]
    simp [ServiceImpl.OnErrorIf, ServiceImpl.OnError, hg, Run.log, List.filterMap_append, hl,
      hE, hv, hinv]

/-- What the error sink holds after one `Fetch`: when the handler appends what
it is given to what the sink holds, and the store and the lookup leave the
sink alone, the sink has received, in order, the errors of the calls that
failed in this invocation. -/
theorem Fetch_sink {σ : Type} (now : σ → Time) (s : ServiceImpl σ) (g : Err → σ → σ)
    (hg : s.onError = some g) (received : σ → List Err)
    (hE : ∀ e v, received (g e v) = received v ++ [e])
    (hI : ∀ a v, received (s.store.IncrementCount a v).2 = received v)
    (hG : ∀ a v, received (s.store.GetCached a v).2 = received v)
    (hS : ∀ a i t v, received (s.store.SetCached a i t v).2 = received v)
    (hL : ∀ cl, s.rdapClient = some cl → ∀ a v, received (cl.Lookup a v).2 = received v)
    (ip : String) (w : σ) :
    received (s.Fetch now ip (Run.start w)).2.world =
      received w ++ (s.Fetch now ip (Run.start w)).2.trace.filterMap Call.failure := by
  have h1 : received (s.counted ip (Run.start w)).world =
      received w ++ (s.counted ip (Run.start w)).trace.filterMap Call.failure := by
    unfold ServiceImpl.counted
    exact sink_step s g hg received hE (received w) (Run.start w) _ _ _
      (failure_IncrementCount _ _ _) (hI ip w) (by simp [Run.start])
  have h2 : received (s.consulted ip (Run.start w)).world =
      received w ++ (s.consulted ip (Run.start w)).trace.filterMap Call.failure := by
    unfold ServiceImpl.consulted
    exact sink_step s g hg received hE (received w) (s.counted ip (Run.start w)) _ _ _
      (failure_GetCached _ _ _ _ _) (hG ip _) h1
  rcases Fetch_run_cases now s ip (Run.start w) with ⟨_, h⟩ | ⟨cl, _, _, h⟩ |
    ⟨cl, e, hc, _, he, h⟩ | ⟨cl, hc, _, he, h⟩ <;> rw [h]
  · exact h1
  · exact h2
  · have h3 := sink_step s g hg received hE (received w) (s.consulted ip (Run.start w))
      (Call.Lookup ip (s.lookedUp cl ip (Run.start w)).1.1 (some e))
      (s.lookedUp cl ip (Run.start w)).2 (some ("rdap lookup: " ++ e)) rfl
      (hL cl hc ip _) h2
    simpa [ServiceImpl.afterLookup, ServiceImpl.OnErrorIf, he] using h3
  · have h3 := sink_step s g hg received hE (received w) (s.consulted ip (Run.start w))
      (Call.Lookup ip (s.lookedUp cl ip (Run.start w)).1.1 none)
      (s.lookedUp cl ip (Run.start w)).2 none rfl (hL cl hc ip _) h2
    have h3' : received (s.afterLookup cl ip (Run.start w)).world =
        received w ++ (s.afterLookup cl ip (Run.start w)).trace.filterMap Call.failure := by
      simpa [ServiceImpl.afterLookup, ServiceImpl.OnErrorIf, he] using h3
    unfold ServiceImpl.afterWrite
    exact sink_step s g hg received hE (received w) (s.afterLookup cl ip (Run.start w)) _ _ _
      (failure_SetCached _ _ _ _) (hS ip _ _ _) h3'

/-- The calls that failed are as many as the errors they are reported with. -/
theorem length_failures (l : List Call) :
    (l.filterMap Call.failure).length = l.countP Call.failed := by
  induction l with
  | nil => rfl
  | cons c l ih =>
    rcases c with ⟨ip, n, _ | e⟩ | ⟨ip, i, t, ok, _ | e⟩ | ⟨ip, i, t, _ | e⟩ |
      ⟨ip, i, _ | e⟩ | ⟨e⟩ <;>
      simp [List.filterMap_cons, List.countP_cons, Call.failure, Call.failed, ih]

/-- C9: `Fetch` returns a nil error, and the error field of its Response is
the error `IncrementCount` returned and nothing else: it is nil whenever
counting succeeds, whatever `GetCached`, `Lookup` and `SetCached` return. With
an error handler set, an error returned by `GetCached` or by `SetCached` is
passed to the handler, and an error of `Lookup` is passed to it wrapped as
"rdap lookup: ...": when the handler appends what it is given to what the sink
holds, and the store and the lookup leave the sink alone, the sink holds after
`Fetch` what it held before followed by the errors of the calls that failed. -/
theorem Fetch_errors_go_to_the_handler {σ : Type} (now : σ → Time) (s : ServiceImpl σ)
    (ip : String) (w : σ) :
    (s.Fetch now ip (Run.start w)).1.2 = none ∧
    (s.Fetch now ip (Run.start w)).1.1.Error = (s.store.IncrementCount ip w).1.2 ∧
    ((s.store.IncrementCount ip w).1.2 = none → (s.Fetch now ip (Run.start w)).1.1.Error = none) ∧
    ∀ g, s.onError = some g →
      (∀ c t ok e, Call.GetCached ip c t ok (some e) ∈ (s.Fetch now ip (Run.start w)).2.trace →
        Call.OnError e ∈ (s.Fetch now ip (Run.start w)).2.trace) ∧
      (∀ i e, Call.Lookup ip i (some e) ∈ (s.Fetch now ip (Run.start w)).2.trace →
        Call.OnError ("rdap lookup: " ++ e) ∈ (s.Fetch now ip (Run.start w)).2.trace) ∧
      (∀ i t e, Call.SetCached ip i t (some e) ∈ (s.Fetch now ip (Run.start w)).2.trace →
        Call.OnError e ∈ (s.Fetch now ip (Run.start w)).2.trace) ∧
      (∀ received : σ → List Err,
        (∀ e v, received (g e v) = received v ++ [e]) →
        (∀ a v, received (s.store.IncrementCount a v).2 = received v) →
        (∀ a v, received (s.store.GetCached a v).2 = received v) →
        (∀ a i t v, received (s.store.SetCached a i t v).2 = received v) →
        (∀ cl, s.rdapClient = some cl → ∀ a v, received (cl.Lookup a v).2 = received v) →
        received (s.Fetch now ip (Run.start w)).2.world =
          received w ++ (s.Fetch now ip (Run.start w)).2.trace.filterMap Call.failure) := by
  refine ⟨rfl, rfl, fun h => h, ?_⟩
  intro g hg
  refine ⟨?_, ?_, ?_, fun received hE hI hG hS hL =>
    Fetch_sink now s g hg received hE hI hG hS hL ip w⟩
  · intro c t ok e hm
    have hm' : Call.GetCached ip c t ok (some e) ∈
        (s.Fetch now ip (Run.start w)).2.trace.filter Call.isGetCached :=
      List.mem_filter.mpr ⟨hm, rfl⟩
    rw [Fetch_filter_GetCached now s ip w] at hm'
    cases hc : s.rdapClient with
    | none => simp [hc] at hm'
    | some cl =>
      simp only [hc, List.mem_singleton, Call.GetCached.injEq, true_and] at hm'
      exact consulted_trace_kept now s ip _ cl hc _
        (consulted_reports s g hg ip _ e hm'.2.2.2.symm)
  · intro i e hm
    have hm' : Call.Lookup ip i (some e) ∈
        (s.Fetch now ip (Run.start w)).2.trace.filter Call.isLookup :=
      List.mem_filter.mpr ⟨hm, rfl⟩
    rw [Fetch_filter_Lookup now s ip w] at hm'
    cases hc : s.rdapClient with
    | none => simp [hc] at hm'
    | some cl =>
      cases hf : s.servesCached now ip (Run.start w) with
      | true => simp [hc, hf] at hm'
      | false =>
        simp only [hc, hf, Bool.false_eq_true, if_false, List.mem_singleton,
          Call.Lookup.injEq, true_and] at hm'
        rw [Fetch_lookup_failed now s ip (Run.start w) cl hc hf e hm'.2.symm]
        exact OnError_reports s g hg _ _
  · intro i t e hm
    have hm' : Call.SetCached ip i t (some e) ∈
        (s.Fetch now ip (Run.start w)).2.trace.filter Call.isSetCached :=
      List.mem_filter.mpr ⟨hm, rfl⟩
    rw [Fetch_filter_SetCached now s ip w] at hm'
    cases hc : s.rdapClient with
    | none => simp [hc] at hm'
    | some cl =>
      cases hf : s.servesCached now ip (Run.start w) with
      | true => simp [hc, hf] at hm'
      | false =>
        cases he : (s.lookedUp cl ip (Run.start w)).1.2 with
        | some e' => simp [hc, hf, he] at hm'
        | none =>
          simp only [hc, hf, he, Bool.false_eq_true, if_false, List.mem_singleton,
            Call.SetCached.injEq, true_and] at hm'
          rw [Fetch_lookup_ok now s ip (Run.start w) cl hc hf he]
          unfold ServiceImpl.afterWrite
          rw [← hm'.2.2]
          exact OnError_reports s g hg _ _

/-- Witness for C9: a stale cache entry and a lookup that fails. With a handler
that does nothing, the Response carries no error and the lookup error is in
the record of calls; with a handler that keeps what it receives, the sink
holds the lookup error and nothing else. -/
theorem Fetch_errors_go_to_the_handler_witness :
    Call.Lookup "1.2.3.4" Info.empty (some "lookupFunc is not set") ∈
      ((NewService staleStore (some testLookup) none).Fetch id "1.2.3.4"
        (Run.start testNow)).2.trace ∧
    ((NewService staleStore (some testLookup) none).Fetch id "1.2.3.4"
      (Run.start testNow)).1.1.Error = none ∧
    Call.OnError "rdap lookup: lookupFunc is not set" ∈
      ((NewService staleStore (some testLookup) none).Fetch id "1.2.3.4"
        (Run.start testNow)).2.trace ∧
    (sinkService.Fetch (fun _ => testNow) "1.2.3.4" (Run.start [])).2.world =
      ["rdap lookup: lookupFunc is not set"] :=
  have h : Call.Lookup "1.2.3.4" Info.empty (some "lookupFunc is not set") ∈
      ((NewService staleStore (some testLookup) none).Fetch id "1.2.3.4"
        (Run.start testNow)).2.trace := by decide
  ⟨h, (Fetch_errors_go_to_the_handler id (NewService staleStore (some testLookup) none)
      "1.2.3.4" testNow).2.2.1 rfl,
    ((Fetch_errors_go_to_the_handler id (NewService staleStore (some testLookup) none)
      "1.2.3.4" testNow).2.2.2 (fun _ v => v) rfl).2.1 Info.empty "lookupFunc is not set" h,
    (((Fetch_errors_go_to_the_handler (fun _ => testNow) sinkService "1.2.3.4" []).2.2.2
      keepError rfl).2.2.2 (fun v => v) (fun _ _ => rfl) (fun _ _ => rfl) (fun _ _ => rfl)
      (fun _ _ _ _ => rfl)
      (by
        intro cl hcl a v
        simp only [sinkService, NewService, Option.some.injEq] at hcl
        subst hcl
        rfl)).trans (by decide)⟩

/-! ## A failed cache read -/

/-- C10, as stated, fails: `Fetch` keeps the record and the found flag that
come back with an error of `GetCached`. With an entry marked as found and
fetched at the time of the read, the lookup is not called and the Response
carries the record of the failed read; with one fetched 30 hours before, the
lookup is called, fails, and the Response again carries that record, not the
empty one. -/
theorem Fetch_failed_read_keeps_flag :
    ((faultyStore 0).GetCached "1.2.3.4" testNow).1.2.2.2 = some "get cache: i/o timeout" ∧
    ((NewService (faultyStore 0) (some testLookup) none).Fetch id "1.2.3.4"
      (Run.start testNow)).2.trace.filter Call.isLookup = [] ∧
    ((NewService (faultyStore 0) (some testLookup) none).Fetch id "1.2.3.4"
      (Run.start testNow)).1.1.RDAP = ⟨"US", "", "", "", "", []⟩ ∧
    ((faultyStore (30 * Hour)).GetCached "1.2.3.4" testNow).1.2.2.2 =
      some "get cache: i/o timeout" ∧
    ((NewService (faultyStore (30 * Hour)) (some testLookup) none).Fetch id "1.2.3.4"
      (Run.start testNow)).2.trace.filter Call.isLookup =
        [Call.Lookup "1.2.3.4" Info.empty (some "lookupFunc is not set")] ∧
    ((NewService (faultyStore (30 * Hour)) (some testLookup) none).Fetch id "1.2.3.4"
      (Run.start testNow)).1.1.RDAP = ⟨"US", "", "", "", "", []⟩ ∧
    ((NewService (faultyStore (30 * Hour)) (some testLookup) none).Fetch id "1.2.3.4"
      (Run.start testNow)).1.1.RDAP ≠ Info.empty := by
  refine ⟨rfl, ?_, ?_, rfl, ?_, ?_, ?_⟩ <;> decide

/-- C10, amended: with a lookup capability configured, when `GetCached`
returns an error together with found = false, `Fetch` goes on as with an empty
cache: it calls `Lookup` once, and if `Lookup` returns an error the record of
the Response is empty, whatever record came back with the failed read.
`RedisStore.GetCached` returns found = false and the empty record with every
error it returns. -/
theorem Fetch_failed_read_without_entry {σ : Type} (now : σ → Time) :
    (∀ (s : ServiceImpl σ) (ip : String) (w : σ) (cl : RDAPLookup σ) (e : Err),
      s.rdapClient = some cl →
      (s.cacheRead ip (Run.start w)).1.2.2.2 = some e →
      (s.cacheRead ip (Run.start w)).1.2.2.1 = false →
      (s.Fetch now ip (Run.start w)).2.trace.filter Call.isLookup =
        [Call.Lookup ip (s.lookedUp cl ip (Run.start w)).1.1
          (s.lookedUp cl ip (Run.start w)).1.2] ∧
      ((s.lookedUp cl ip (Run.start w)).1.2 ≠ none →
        (s.Fetch now ip (Run.start w)).1.1.RDAP = Info.empty)) ∧
    (∀ (json : JSON) (rs : RedisStore σ) (ip : String) (w : σ) (e : Err),
      (rs.GetCached json ip w).1.2.2.2 = some e →
      (rs.GetCached json ip w).1.2.2.1 = false ∧ (rs.GetCached json ip w).1.1 = Info.empty ∧
      (rs.GetCached json ip w).1.2.1 = Time.zero) := by
  refine ⟨?_, ?_⟩
  · intro s ip w cl e hcl _ hnf
    have hf : s.servesCached now ip (Run.start w) = false := by
      simp [ServiceImpl.servesCached, hnf]
    have hL := Fetch_filter_Lookup now s ip w
    simp only [hcl, hf, Bool.false_eq_true, if_false] at hL
    refine ⟨hL, ?_⟩
    intro hne
    cases he : (s.lookedUp cl ip (Run.start w)).1.2 with
    | none => exact absurd he hne
    | some e' =>
      rw [Fetch_lookup_failed now s ip (Run.start w) cl hcl hf e' he]
      simp [hnf]
  · intro json rs ip w e he
    unfold RedisStore.GetCached at he ⊢
    cases hg : (rs.client.Get (cacheKey ip) w).1.2 with
    | some err =>
      by_cases hn : err = redisNil <;> simp [hg, hn]
    | none =>
      cases hu : (json.Unmarshal (rs.client.Get (cacheKey ip) w).1.1).2 with
      | some err => simp [hg, hu]
      | none => simp [hg, hu] at he

/-- Witness for C10 as amended: a `RedisStore` whose server cannot be reached
and a lookup that fails. -/
theorem Fetch_failed_read_without_entry_witness :
    ((RedisStore.toStore strictJSON ⟨downRedis⟩).GetCached "1.2.3.4" testNow).1.2.2 =
      (false, some "get cache: dial tcp: connection refused") ∧
    ((NewService (RedisStore.toStore strictJSON ⟨downRedis⟩) (some testLookup) none).Fetch id
      "1.2.3.4" (Run.start testNow)).2.trace.filter Call.isLookup =
        [Call.Lookup "1.2.3.4" Info.empty (some "lookupFunc is not set")] ∧
    ((NewService (RedisStore.toStore strictJSON ⟨downRedis⟩) (some testLookup) none).Fetch id
      "1.2.3.4" (Run.start testNow)).1.1.RDAP = Info.empty :=
  ⟨by decide,
    ((Fetch_failed_read_without_entry id).1
      (NewService (RedisStore.toStore strictJSON ⟨downRedis⟩) (some testLookup) none)
      "1.2.3.4" testNow testLookup "get cache: dial tcp: connection refused" rfl
      (by decide) (by decide)).1,
    ((Fetch_failed_read_without_entry id).1
      (NewService (RedisStore.toStore strictJSON ⟨downRedis⟩) (some testLookup) none)
      "1.2.3.4" testNow testLookup "get cache: dial tcp: connection refused" rfl
      (by decide) (by decide)).2 (by decide)⟩

/-! ## The handler and the error field of the Response -/

/-- C8, as stated, fails: for the request `GET /?ip=1.2.3.4`, with a store
whose server cannot be reached, `Fetch` returns a nil error and a Response
with the address, the count 0, the record the lookup returned and the error
of `IncrementCount`; the handler then only writes status 500, and hands no
body to the response writer. -/
theorem ServeHTTP_drops_response_with_error :
    downService.Fetch id "1.2.3.4" (Run.start testNow) =
      (({ IP := "1.2.3.4", CountCall := 0, RDAP := ⟨"US", "", "", "TEST-NET", "", []⟩,
          Events := [],
          Error := some "increment count: dial tcp: connection refused" }, none),
        (downService.Fetch id "1.2.3.4" (Run.start testNow)).2) ∧
    (downHandler.ServeHTTP plainLib okEncoder [] rootRequest (Run.start testNow)).1 =
      [Write.WriteHeader 500] ∧
    (downHandler.ServeHTTP plainLib okEncoder [] rootRequest (Run.start testNow)).1.filter
      Write.isBody = [] := by
  refine ⟨?_, ?_, ?_⟩
  · rfl
  · decide
  · decide

/-- C8, amended: for every request whose path is "/" or starts with "/api",
when `Fetch` returns a nil error and a Response whose error field is not nil
(as `ServiceImpl.Fetch` does whenever `IncrementCount` returns an error), the
handler passes that error to the error handler, writes status 500 and nothing
else, and hands no body to the response writer. When the error field is nil,
the handler hands over a body with the address, the call count and the
registry record of the Response. -/
theorem ServeHTTP_embedded_error {σ : Type} (lib : Stdlib) (encode : Encoder σ)
    (h : Handler σ) (w : List Write) (r : Request) (run : Run σ)
    (hpath : r.Path = "/" ∨ HasPrefix r.Path "/api" = true) :
    (∀ e, (h.service.Fetch (clientIP lib r) run).1.2 = none →
      (h.service.Fetch (clientIP lib r) run).1.1.Error = some e →
      h.ServeHTTP lib encode w r run =
        (w ++ [Write.WriteHeader StatusInternalServerError],
          h.service.OnError e (h.service.Fetch (clientIP lib r) run).2)) ∧
    ((h.service.Fetch (clientIP lib r) run).1.2 = none →
      (h.service.Fetch (clientIP lib r) run).1.1.Error = none →
      Write.Encode
          { IP := (h.service.Fetch (clientIP lib r) run).1.1.IP
            CountCall := (h.service.Fetch (clientIP lib r) run).1.1.CountCall
            Country := (h.service.Fetch (clientIP lib r) run).1.1.RDAP.Country
            Handle := (h.service.Fetch (clientIP lib r) run).1.1.RDAP.Handle
            IPVersion := (h.service.Fetch (clientIP lib r) run).1.1.RDAP.IPVersion
            Name := (h.service.Fetch (clientIP lib r) run).1.1.RDAP.Name
            Type_ := (h.service.Fetch (clientIP lib r) run).1.1.RDAP.Type_
            Events := (h.service.Fetch (clientIP lib r) run).1.1.RDAP.Events } ∈
          (h.ServeHTTP lib encode w r run).1 ∨
        Write.Execute
          { IP := (h.service.Fetch (clientIP lib r) run).1.1.IP
            CountCall := (h.service.Fetch (clientIP lib r) run).1.1.CountCall
            RDAP := (h.service.Fetch (clientIP lib r) run).1.1.RDAP
            HasRDAP := hasRDAP (h.service.Fetch (clientIP lib r) run).1.1.RDAP } ∈
          (h.ServeHTTP lib encode w r run).1) ∧
    (∀ (now : σ → Time) (s : ServiceImpl σ) (ip : String) (r0 : Run σ) (e : Err),
      (s.store.IncrementCount ip r0.world).1.2 = some e →
      ((s.toService now).Fetch ip r0).1.2 = none ∧
      ((s.toService now).Fetch ip r0).1.1.Error = some e) := by
  have hp : (r.Path ≠ "/" && !HasPrefix r.Path "/api") = false := by
    rcases hpath with h1 | h1 <;> simp [h1]
  refine ⟨?_, ?_, ?_⟩
  · intro e h1 h2
    unfold Handler.ServeHTTP
    simp only [hp, Bool.false_eq_true, if_false, h1, h2]
  · intro h1 h2
    unfold Handler.ServeHTTP
    simp only [hp, Bool.false_eq_true, if_false, h1, h2]
    by_cases hj : wantsJSON lib r = true
    · left
      simp only [hj, if_true]
      split <;> simp
    · right
      simp only [hj, Bool.false_eq_true, if_false]
      split <;> simp
  · intro now s ip r0 e he
    exact ⟨rfl, he⟩

/-- Witness for C8 as amended: the request `GET /?ip=1.2.3.4` against a store
whose server cannot be reached is answered with status 500 alone; against the
service of `TestServiceImpl_Fetch` a body with its Response is handed over. -/
theorem ServeHTTP_embedded_error_witness :
    (downHandler.ServeHTTP plainLib okEncoder [] rootRequest (Run.start testNow)).1 =
      [Write.WriteHeader StatusInternalServerError] ∧
    (Write.Encode ⟨"1.2.3.4", 1, "US", "", "", "", "", []⟩ ∈
        (testHandler.ServeHTTP plainLib okEncoder [] rootRequest (Run.start testNow)).1 ∨
      Write.Execute ⟨"1.2.3.4", 1, ⟨"US", "", "", "", "", []⟩, true⟩ ∈
        (testHandler.ServeHTTP plainLib okEncoder [] rootRequest (Run.start testNow)).1) :=
  ⟨congrArg Prod.fst
      ((ServeHTTP_embedded_error plainLib okEncoder downHandler [] rootRequest
        (Run.start testNow) (Or.inl rfl)).1
        "increment count: dial tcp: connection refused" (by decide) (by decide)),
    (ServeHTTP_embedded_error plainLib okEncoder testHandler [] rootRequest
      (Run.start testNow) (Or.inl rfl)).2.1 (by decide) (by decide)⟩

/-! ## Every failure is reported once -/

/-- With an error handler set, the statement `if err != nil { s.OnError(err) }`
adds one report to the record when there is an error, and none otherwise. -/
theorem OnErrorIf_trace {σ : Type} (s : ServiceImpl σ) (g : Err → σ → σ)
    (hg : s.onError = some g) (err : Option Err) (r : Run σ) :
    (s.OnErrorIf err r).trace = r.trace ++ (err.map Call.OnError).toList := by
  cases err with
  | none => simp [ServiceImpl.OnErrorIf]
  | some e => simp [ServiceImpl.OnErrorIf, ServiceImpl.OnError, hg, Run.log]

theorem OnError_trace {σ : Type} (s : ServiceImpl σ) (g : Err → σ → σ)
    (hg : s.onError = some g) (e : Err) (r : Run σ) :
    (s.OnError e r).trace = r.trace ++ [Call.OnError e] := by
  simp [ServiceImpl.OnError, hg, Run.log]

/-- The whole record of one `Fetch`, with an error handler set. -/
theorem Fetch_trace {σ : Type} (now : σ → Time) (s : ServiceImpl σ) (g : Err → σ → σ)
    (hg : s.onError = some g) (ip : String) (w : σ) :
    (s.Fetch now ip (Run.start w)).2.trace =
      Call.IncrementCount ip (s.store.IncrementCount ip w).1.1 (s.store.IncrementCount ip w).1.2 ::
        (((s.store.IncrementCount ip w).1.2.map Call.OnError).toList ++
        match s.rdapClient with
        | none => []
        | some cl =>
          Call.GetCached ip (s.cacheRead ip (Run.start w)).1.1
              (s.cacheRead ip (Run.start w)).1.2.1 (s.cacheRead ip (Run.start w)).1.2.2.1
              (s.cacheRead ip (Run.start w)).1.2.2.2 ::
            (((s.cacheRead ip (Run.start w)).1.2.2.2.map Call.OnError).toList ++
            if s.servesCached now ip (Run.start w) then []
            else
              Call.Lookup ip (s.lookedUp cl ip (Run.start w)).1.1
                  (s.lookedUp cl ip (Run.start w)).1.2 ::
                match (s.lookedUp cl ip (Run.start w)).1.2 with
                | some e => [Call.OnError ("rdap lookup: " ++ e)]
                | none =>
                  Call.SetCached ip (s.lookedUp cl ip (Run.start w)).1.1
                      (now (s.lookedUp cl ip (Run.start w)).2)
                      (s.cacheWrite now cl ip (Run.start w)).1 ::
                    ((s.cacheWrite now cl ip (Run.start w)).1.map Call.OnError).toList)) := by
  have h1 : (s.counted ip (Run.start w)).trace =
      Call.IncrementCount ip (s.store.IncrementCount ip w).1.1 (s.store.IncrementCount ip w).1.2 ::
        ((s.store.IncrementCount ip w).1.2.map Call.OnError).toList := by
    unfold ServiceImpl.counted
    rw [OnErrorIf_trace s g hg]
    simp [Run.log, Run.start_trace, Run.start_world]
  have h2 : (s.consulted ip (Run.start w)).trace =
      (s.counted ip (Run.start w)).trace ++
        Call.GetCached ip (s.cacheRead ip (Run.start w)).1.1
            (s.cacheRead ip (Run.start w)).1.2.1 (s.cacheRead ip (Run.start w)).1.2.2.1
            (s.cacheRead ip (Run.start w)).1.2.2.2 ::
          ((s.cacheRead ip (Run.start w)).1.2.2.2.map Call.OnError).toList := by
    unfold ServiceImpl.consulted
    rw [OnErrorIf_trace s g hg]
    simp [Run.log]
  have h3 : ∀ cl, (s.afterLookup cl ip (Run.start w)).trace =
      (s.consulted ip (Run.start w)).trace ++
        [Call.Lookup ip (s.lookedUp cl ip (Run.start w)).1.1
          (s.lookedUp cl ip (Run.start w)).1.2] := by
    intro cl
    simp [ServiceImpl.afterLookup, Run.log]
  rcases Fetch_run_cases now s ip (Run.start w) with ⟨hc, h⟩ | ⟨cl, hc, hf, h⟩ |
    ⟨cl, e, hc, hf, he, h⟩ | ⟨cl, hc, hf, he, h⟩ <;> rw [h, hc]
  · simp [h1]
  · simp [h2, h1, hf]
  · rw [OnError_trace s g hg, h3, h2, h1]
    simp [hf, he]
  · unfold ServiceImpl.afterWrite
    rw [OnErrorIf_trace s g hg]
    simp [Run.log, h3, h2, h1, hf, he, ServiceImpl.afterLookup]

/-- The reports of a record are those of its calls to the error handler. -/
theorem filterMap_reported_filter (l : List Call) :
    (l.filter Call.isOnError).filterMap Call.reported = l.filterMap Call.reported := by
  induction l with
  | nil => rfl
  | cons c l ih =>
    cases c <;>
      simp [List.filter_cons, List.filterMap_cons, Call.isOnError, Call.reported, ih]

/-- C13: with an error handler set (always so after `NewService`), the number
of reports the handler receives during one `Fetch` is the number of calls
among `IncrementCount`, `GetCached`, `Lookup` and `SetCached` that returned an
error in that invocation; the reports are, in order, the errors of these
calls, that of `Lookup` wrapped as "rdap lookup: ...". So nothing is reported
when nothing fails, and when counting and the cache read succeed and the
lookup fails there is exactly one report. The handler is really given them:
when it appends what it is given to what the sink holds, and the store and the
lookup leave the sink alone, the sink holds after `Fetch` what it held before
followed by the errors of the failed calls, as many more as calls failed, and
one more, the wrapped lookup error, when only the lookup fails. -/
theorem Fetch_reports_each_failure_once {σ : Type} (now : σ → Time) (s : ServiceImpl σ)
    (g : Err → σ → σ) (hg : s.onError = some g) (ip : String) (w : σ) :
    (s.Fetch now ip (Run.start w)).2.trace.countP Call.isOnError =
      (s.Fetch now ip (Run.start w)).2.trace.countP Call.failed ∧
    (s.Fetch now ip (Run.start w)).2.trace.filterMap Call.reported =
      (s.Fetch now ip (Run.start w)).2.trace.filterMap Call.failure ∧
    ((s.Fetch now ip (Run.start w)).2.trace.countP Call.failed = 0 →
      (s.Fetch now ip (Run.start w)).2.trace.filter Call.isOnError = []) ∧
    (∀ n c t ok i e,
      Call.IncrementCount ip n none ∈ (s.Fetch now ip (Run.start w)).2.trace →
      Call.GetCached ip c t ok none ∈ (s.Fetch now ip (Run.start w)).2.trace →
      Call.Lookup ip i (some e) ∈ (s.Fetch now ip (Run.start w)).2.trace →
      (s.Fetch now ip (Run.start w)).2.trace.filter Call.isOnError =
        [Call.OnError ("rdap lookup: " ++ e)]) ∧
    (∀ received : σ → List Err,
      (∀ e v, received (g e v) = received v ++ [e]) →
      (∀ a v, received (s.store.IncrementCount a v).2 = received v) →
      (∀ a v, received (s.store.GetCached a v).2 = received v) →
      (∀ a i t v, received (s.store.SetCached a i t v).2 = received v) →
      (∀ cl, s.rdapClient = some cl → ∀ a v, received (cl.Lookup a v).2 = received v) →
      received (s.Fetch now ip (Run.start w)).2.world =
        received w ++ (s.Fetch now ip (Run.start w)).2.trace.filterMap Call.failure ∧
      (received (s.Fetch now ip (Run.start w)).2.world).length =
        (received w).length + (s.Fetch now ip (Run.start w)).2.trace.countP Call.failed ∧
      (∀ n c t ok i e,
        Call.IncrementCount ip n none ∈ (s.Fetch now ip (Run.start w)).2.trace →
        Call.GetCached ip c t ok none ∈ (s.Fetch now ip (Run.start w)).2.trace →
        Call.Lookup ip i (some e) ∈ (s.Fetch now ip (Run.start w)).2.trace →
        received (s.Fetch now ip (Run.start w)).2.world =
          received w ++ ["rdap lookup: " ++ e])) := by
  have record : (s.Fetch now ip (Run.start w)).2.trace.countP Call.isOnError =
      (s.Fetch now ip (Run.start w)).2.trace.countP Call.failed ∧
    (s.Fetch now ip (Run.start w)).2.trace.filterMap Call.reported =
      (s.Fetch now ip (Run.start w)).2.trace.filterMap Call.failure ∧
    ((s.Fetch now ip (Run.start w)).2.trace.countP Call.failed = 0 →
      (s.Fetch now ip (Run.start w)).2.trace.filter Call.isOnError = []) ∧
    (∀ n c t ok i e,
      Call.IncrementCount ip n none ∈ (s.Fetch now ip (Run.start w)).2.trace →
      Call.GetCached ip c t ok none ∈ (s.Fetch now ip (Run.start w)).2.trace →
      Call.Lookup ip i (some e) ∈ (s.Fetch now ip (Run.start w)).2.trace →
      (s.Fetch now ip (Run.start w)).2.trace.filter Call.isOnError =
        [Call.OnError ("rdap lookup: " ++ e)]) := by
    rw [Fetch_trace now s g hg ip w]
    generalize (s.store.IncrementCount ip w).1.2 = e0
    generalize (s.store.IncrementCount ip w).1.1 = n0
    cases s.rdapClient with
    | none =>
      cases e0 <;> simp [Call.isOnError, Call.failed, Call.reported, Call.failure]
    | some cl =>
      dsimp only
      generalize s.cacheWrite now cl ip (Run.start w) = cw
      generalize s.servesCached now ip (Run.start w) = b
      generalize s.lookedUp cl ip (Run.start w) = lk
      generalize s.cacheRead ip (Run.start w) = rd
      rcases rd with ⟨⟨c1, t1, ok1, e1⟩, w1⟩
      rcases lk with ⟨⟨i2, e2⟩, w2⟩
      rcases cw with ⟨e3, w3⟩
      refine ⟨?_, ?_, ?_, ?_⟩
      · cases e0 <;> cases e1 <;> cases b <;> cases e2 <;> cases e3 <;>
          simp [Call.isOnError, Call.failed]
      · cases e0 <;> cases e1 <;> cases b <;> cases e2 <;> cases e3 <;>
          simp [Call.reported, Call.failure]
      · cases e0 <;> cases e1 <;> cases b <;> cases e2 <;> cases e3 <;>
          simp [Call.isOnError, Call.failed]
      · intro n c t ok i e
        cases e0 <;> cases e1 <;> cases b <;> cases e2 <;> cases e3 <;>
          simp [Call.isOnError] <;> (intro _ _ _ _ _ h; rw [h])
  refine ⟨record.1, record.2.1, record.2.2.1, record.2.2.2, ?_⟩
  intro received hE hI hG hS hL
  have hsink := Fetch_sink now s g hg received hE hI hG hS hL ip w
  refine ⟨hsink, ?_, ?_⟩
  · rw [hsink, List.length_append, length_failures]
  · intro n c t ok i e h1 h2 h3
    have hr := record.2.2.2 n c t ok i e h1 h2 h3
    have hf : (s.Fetch now ip (Run.start w)).2.trace.filterMap Call.failure =
        ["rdap lookup: " ++ e] := by
      rw [← record.2.1, ← filterMap_reported_filter, hr]
      rfl
    rw [hsink, hf]

/-- Witness for C13: the cache holds a record fetched 30 hours ago and the
lookup fails; counting and the cache read succeed. The handler keeps what it
receives, and after `Fetch` the sink, empty before, holds the one wrapped
lookup error. -/
theorem Fetch_reports_each_failure_once_witness :
    (Call.IncrementCount "1.2.3.4" 1 none ∈
        (sinkService.Fetch (fun _ => testNow) "1.2.3.4" (Run.start [])).2.trace ∧
      Call.GetCached "1.2.3.4" ⟨"US", "", "", "", "", []⟩ (testNow.Add (-(30 * Hour))) true none ∈
        (sinkService.Fetch (fun _ => testNow) "1.2.3.4" (Run.start [])).2.trace ∧
      Call.Lookup "1.2.3.4" Info.empty (some "lookupFunc is not set") ∈
        (sinkService.Fetch (fun _ => testNow) "1.2.3.4" (Run.start [])).2.trace) ∧
    (sinkService.Fetch (fun _ => testNow) "1.2.3.4" (Run.start [])).2.trace.filter
      Call.isOnError = [Call.OnError "rdap lookup: lookupFunc is not set"] ∧
    (sinkService.Fetch (fun _ => testNow) "1.2.3.4" (Run.start [])).2.trace.countP
      Call.isOnError =
    (sinkService.Fetch (fun _ => testNow) "1.2.3.4" (Run.start [])).2.trace.countP
      Call.failed ∧
    (sinkService.Fetch (fun _ => testNow) "1.2.3.4" (Run.start [])).2.world =
      [] ++ ["rdap lookup: " ++ "lookupFunc is not set"] :=
  have h : Call.IncrementCount "1.2.3.4" 1 none ∈
        (sinkService.Fetch (fun _ => testNow) "1.2.3.4" (Run.start [])).2.trace ∧
      Call.GetCached "1.2.3.4" ⟨"US", "", "", "", "", []⟩ (testNow.Add (-(30 * Hour))) true none ∈
        (sinkService.Fetch (fun _ => testNow) "1.2.3.4" (Run.start [])).2.trace ∧
      Call.Lookup "1.2.3.4" Info.empty (some "lookupFunc is not set") ∈
        (sinkService.Fetch (fun _ => testNow) "1.2.3.4" (Run.start [])).2.trace := by decide
  have hL : ∀ cl, sinkService.rdapClient = some cl →
      ∀ (a : String) (v : List Err), (cl.Lookup a v).2 = v := by
    intro cl hcl a v
    simp only [sinkService, NewService, Option.some.injEq] at hcl
    subst hcl
    rfl
  ⟨h,
    (Fetch_reports_each_failure_once (fun _ => testNow) sinkService keepError rfl
      "1.2.3.4" []).2.2.2.1 1 ⟨"US", "", "", "", "", []⟩
      (testNow.Add (-(30 * Hour))) true Info.empty "lookupFunc is not set" h.1 h.2.1 h.2.2,
    (Fetch_reports_each_failure_once (fun _ => testNow) sinkService keepError rfl
      "1.2.3.4" []).1,
    ((Fetch_reports_each_failure_once (fun _ => testNow) sinkService keepError rfl
      "1.2.3.4" []).2.2.2.2 (fun v => v) (fun _ _ => rfl) (fun _ _ => rfl) (fun _ _ => rfl)
      (fun _ _ _ _ => rfl) hL).2.2 1 ⟨"US", "", "", "", "", []⟩
      (testNow.Add (-(30 * Hour))) true Info.empty "lookupFunc is not set" h.1 h.2.1 h.2.2⟩

/-! ## The address of the client -/

theorem TrimSpace_empty : TrimSpace "" = "" := rfl

theorem Split_empty (sep : Char) : Split "" sep = [""] := rfl

/-- The loop over the parts of `X-Forwarded-For` finds the first part that
parses once trimmed. -/
theorem firstForwarded_eq_find (lib : Stdlib) (parts : List String) :
    firstForwarded lib parts = (parts.map TrimSpace).find? (fun ip => lib.ParseIP ip) := by
  induction parts with
  | nil => rfl
  | cons part parts ih =>
    simp only [firstForwarded, List.map_cons, List.find?_cons]
    cases h : lib.ParseIP (TrimSpace part) with
    | true => simp
    | false => simpa using ih

/-- C11: `clientIP` picks the address by a fixed precedence, where an empty
string does not parse as an IP address (as with `net.ParseIP`): the trimmed
`ip` query parameter if it parses; otherwise the first comma-separated entry
of `X-Forwarded-For` that parses once trimmed; otherwise the trimmed
`X-Real-IP` header if it parses; otherwise the host part of the trimmed
`RemoteAddr` if that splits as host and port and the host parses; otherwise
`RemoteAddr` as it is. An `ip` parameter that does not parse is ignored: the
result is that of the same request without the parameter, and it is an
address that parses or `RemoteAddr` as it is. -/
theorem clientIP_precedence (lib : Stdlib) (r : Request) (h0 : lib.ParseIP "" = false) :
    (lib.ParseIP (TrimSpace (r.Query "ip")) = true →
      clientIP lib r = TrimSpace (r.Query "ip")) ∧
    (lib.ParseIP (TrimSpace (r.Query "ip")) = false →
      ∀ ip, ((Split (r.Header "X-Forwarded-For") ',').map TrimSpace).find?
          (fun a => lib.ParseIP a) = some ip →
        clientIP lib r = ip) ∧
    (lib.ParseIP (TrimSpace (r.Query "ip")) = false →
      ((Split (r.Header "X-Forwarded-For") ',').map TrimSpace).find?
        (fun a => lib.ParseIP a) = none →
      lib.ParseIP (TrimSpace (r.Header "X-Real-IP")) = true →
      clientIP lib r = TrimSpace (r.Header "X-Real-IP")) ∧
    (lib.ParseIP (TrimSpace (r.Query "ip")) = false →
      ((Split (r.Header "X-Forwarded-For") ',').map TrimSpace).find?
        (fun a => lib.ParseIP a) = none →
      lib.ParseIP (TrimSpace (r.Header "X-Real-IP")) = false →
      (lib.SplitHostPort (TrimSpace r.RemoteAddr)).2.2 = none →
      lib.ParseIP (lib.SplitHostPort (TrimSpace r.RemoteAddr)).1 = true →
      clientIP lib r = (lib.SplitHostPort (TrimSpace r.RemoteAddr)).1) ∧
    (lib.ParseIP (TrimSpace (r.Query "ip")) = false →
      ((Split (r.Header "X-Forwarded-For") ',').map TrimSpace).find?
        (fun a => lib.ParseIP a) = none →
      lib.ParseIP (TrimSpace (r.Header "X-Real-IP")) = false →
      ((lib.SplitHostPort (TrimSpace r.RemoteAddr)).2.2 ≠ none ∨
        lib.ParseIP (lib.SplitHostPort (TrimSpace r.RemoteAddr)).1 = false) →
      clientIP lib r = r.RemoteAddr) ∧
    (lib.ParseIP (TrimSpace (r.Query "ip")) = false →
      clientIP lib r =
        clientIP lib { r with Query := fun k => if k = "ip" then "" else r.Query k } ∧
      (lib.ParseIP (clientIP lib r) = true ∨ clientIP lib r = r.RemoteAddr)) := by
  have hne : ∀ a : String, (decide (a ≠ "") && lib.ParseIP a) = lib.ParseIP a := by
    intro a
    by_cases ha : a = ""
    · subst ha
      simp [h0]
    · simp [ha]
  have hfwd : ∀ x : String, (if x ≠ "" then firstForwarded lib (Split x ',') else none) =
      ((Split x ',').map TrimSpace).find? (fun a => lib.ParseIP a) := by
    intro x
    by_cases hx : x = ""
    · subst hx
      simp [Split_empty, TrimSpace_empty, h0]
    · simp [hx, firstForwarded_eq_find]
  have hfmem : ∀ ip, ((Split (r.Header "X-Forwarded-For") ',').map TrimSpace).find?
      (fun a => lib.ParseIP a) = some ip → lib.ParseIP ip = true := by
    intro ip h
    exact List.find?_some h
  have key : clientIP lib r =
      if lib.ParseIP (TrimSpace (r.Query "ip")) = true then TrimSpace (r.Query "ip")
      else
        match ((Split (r.Header "X-Forwarded-For") ',').map TrimSpace).find?
            (fun a => lib.ParseIP a) with
        | some ip => ip
        | none =>
          if lib.ParseIP (TrimSpace (r.Header "X-Real-IP")) = true then
            TrimSpace (r.Header "X-Real-IP")
          else if ((lib.SplitHostPort (TrimSpace r.RemoteAddr)).2.2 = none &&
              lib.ParseIP (lib.SplitHostPort (TrimSpace r.RemoteAddr)).1) = true then
            (lib.SplitHostPort (TrimSpace r.RemoteAddr)).1
          else r.RemoteAddr := by
    simp only [clientIP, hne, hfwd]
  refine ⟨?_, ?_, ?_, ?_, ?_, ?_⟩
  · intro h
    simp [key, h]
  · intro h ip hf
    simp [key, h, hf]
  · intro h hf hx
    simp [key, h, hf, hx]
  · intro h hf hx he hp
    simp [key, h, hf, hx, he, hp]
  · intro h hf hx hh
    rcases hh with hh | hh <;> simp [key, h, hf, hx, hh]
  · intro h
    refine ⟨?_, ?_⟩
    · simp only [clientIP, hne, hfwd, h, TrimSpace_empty, h0, if_true]
      simp
    · rw [key]
      simp only [h, Bool.false_eq_true, if_false]
      cases hf : ((Split (r.Header "X-Forwarded-For") ',').map TrimSpace).find?
          (fun a => lib.ParseIP a) with
      | some ip => exact Or.inl (hfmem ip hf)
      | none =>
        simp only
        by_cases hx : lib.ParseIP (TrimSpace (r.Header "X-Real-IP")) = true
        · simp [hx]
        · by_cases hh : ((lib.SplitHostPort (TrimSpace r.RemoteAddr)).2.2 = none &&
              lib.ParseIP (lib.SplitHostPort (TrimSpace r.RemoteAddr)).1) = true
          · simp only [hx, hh, if_true, if_false]
            simp only [Bool.and_eq_true] at hh
            exact Or.inl hh.2
          · simp [hx, hh]

/-- Witness for C11: two cases of `TestClientIP`. An `ip` parameter that does
not parse is passed over for the host of `RemoteAddr`, and the first entry of
`X-Forwarded-For` is taken before `RemoteAddr`. -/
theorem clientIP_precedence_witness :
    testLib.ParseIP "" = false ∧
    clientIP testLib invalidIPRequest = "1.2.3.4" ∧
    clientIP testLib forwardedRequest = "10.0.0.1" :=
  ⟨by decide,
    (clientIP_precedence testLib invalidIPRequest (by decide)).2.2.2.1 (by decide) (by decide)
      (by decide) (by decide) (by decide),
    (clientIP_precedence testLib forwardedRequest (by decide)).2.1 (by decide) "10.0.0.1"
      (by decide)⟩

/-! ## Strings: prefixes, substrings and pieces -/

theorem isPrefixOf_iff_append (p l : List Char) :
    p.isPrefixOf l = true ↔ ∃ t, l = p ++ t := by
  induction p generalizing l with
  | nil => simp
  | cons a p ih =>
    cases l with
    | nil => simp [List.isPrefixOf]
    | cons b l =>
      simp only [List.isPrefixOf, Bool.and_eq_true, beq_iff_eq, ih, List.cons_append,
        List.cons.injEq]
      constructor
      · rintro ⟨rfl, t, rfl⟩
        exact ⟨t, rfl, rfl⟩
      · rintro ⟨t, rfl, rfl⟩
        exact ⟨rfl, t, rfl⟩

theorem containsChars_iff_append (sub l : List Char) :
    containsChars sub l = true ↔ ∃ a b, l = a ++ sub ++ b := by
  induction l with
  | nil =>
    simp only [containsChars, isPrefixOf_iff_append]
    constructor
    · rintro ⟨t, h⟩
      exact ⟨[], t, by simpa using h⟩
    · rintro ⟨a, b, h⟩
      have h2 := congrArg List.length h
      simp only [List.length_nil, List.length_append] at h2
      have ha : a = [] := List.length_eq_zero.mp (by omega)
      have hs : sub = [] := List.length_eq_zero.mp (by omega)
      exact ⟨b, by simpa [ha, hs] using h⟩
  | cons c cs ih =>
    simp only [containsChars, Bool.or_eq_true, isPrefixOf_iff_append, ih]
    constructor
    · rintro (⟨t, h⟩ | ⟨a, b, h⟩)
      · exact ⟨[], t, by simpa using h⟩
      · exact ⟨c :: a, b, by simp [h]⟩
    · rintro ⟨a, b, h⟩
      cases a with
      | nil => exact Or.inl ⟨b, by simpa using h⟩
      | cons a0 a =>
        simp only [List.cons_append, List.cons.injEq] at h
        exact Or.inr ⟨a, b, h.2⟩

theorem splitChars_ne_nil (sep : Char) (l : List Char) : splitChars sep l ≠ [] := by
  cases l with
  | nil => simp [splitChars]
  | cons c cs =>
    unfold splitChars
    split
    · simp
    · split <;> simp

theorem splitChars_of_not_mem (sep : Char) (x : List Char) (h : sep ∉ x) :
    splitChars sep x = [x] := by
  induction x with
  | nil => rfl
  | cons c cs ih =>
    have hc : c ≠ sep := fun e => h (by simp [e])
    have hcs : sep ∉ cs := fun e => h (by simp [e])
    simp [splitChars, hc, ih hcs]

theorem splitChars_append (sep : Char) (a b : List Char) :
    splitChars sep (a ++ sep :: b) = splitChars sep a ++ splitChars sep b := by
  induction a with
  | nil => simp [splitChars]
  | cons c a ih =>
    by_cases hc : c = sep
    · simp [splitChars, hc, ih]
    · simp only [List.cons_append, splitChars, hc, if_false, List.append_eq]
      rw [ih]
      cases h : splitChars sep a with
      | nil => exact absurd h (splitChars_ne_nil sep a)
      | cons p ps => simp

/-- A list either has no `sep`, or splits at its first `sep`. -/
theorem first_sep (sep : Char) (l : List Char) :
    sep ∉ l ∨ ∃ a b, l = a ++ sep :: b ∧ sep ∉ a := by
  induction l with
  | nil => simp
  | cons c cs ih =>
    by_cases hc : c = sep
    · exact Or.inr ⟨[], cs, by simp [hc], by simp⟩
    · rcases ih with h | ⟨a, b, h, ha⟩
      · left
        simp only [List.mem_cons, not_or]
        exact ⟨fun e => hc e.symm, h⟩
      · right
        refine ⟨c :: a, b, by simp [h], ?_⟩
        simp only [List.mem_cons, not_or]
        exact ⟨fun e => hc e.symm, ha⟩

/-- A list either has no `sep`, or splits at its last `sep`. -/
theorem last_sep (sep : Char) (l : List Char) :
    sep ∉ l ∨ ∃ a b, l = a ++ sep :: b ∧ sep ∉ b := by
  induction l with
  | nil => simp
  | cons c cs ih =>
    rcases ih with h | ⟨a, b, h, hb⟩
    · by_cases hc : c = sep
      · exact Or.inr ⟨[], cs, by simp [hc], h⟩
      · left
        simp only [List.mem_cons, not_or]
        exact ⟨fun e => hc e.symm, h⟩
    · exact Or.inr ⟨c :: a, b, by simp [h], hb⟩

/-- The first piece is `x` exactly when the list is `x` or starts with `x`
followed by the separator. -/
theorem splitChars_head (sep : Char) (l x : List Char) (hx : sep ∉ x) :
    (splitChars sep l).head? = some x ↔ l = x ∨ ∃ rest, l = x ++ sep :: rest := by
  constructor
  · intro h
    rcases first_sep sep l with hl | ⟨a, b, hl, ha⟩
    · rw [splitChars_of_not_mem sep l hl] at h
      simp only [List.head?_cons, Option.some.injEq] at h
      exact Or.inl h
    · rw [hl, splitChars_append, splitChars_of_not_mem sep a ha] at h
      simp only [List.singleton_append, List.head?_cons, Option.some.injEq] at h
      exact Or.inr ⟨b, by rw [hl, h]⟩
  · rintro (h | ⟨rest, h⟩)
    · rw [h, splitChars_of_not_mem sep x hx]
      rfl
    · rw [h, splitChars_append, splitChars_of_not_mem sep x hx]
      rfl

/-- The last piece is `x` exactly when the list is `x` or ends with the
separator followed by `x`. -/
theorem splitChars_getLast (sep : Char) (l x : List Char) (hx : sep ∉ x) :
    (splitChars sep l).getLast? = some x ↔ l = x ∨ ∃ pre, l = pre ++ sep :: x := by
  constructor
  · intro h
    rcases last_sep sep l with hl | ⟨a, b, hl, hb⟩
    · rw [splitChars_of_not_mem sep l hl] at h
      simp only [List.getLast?_singleton, Option.some.injEq] at h
      exact Or.inl h
    · rw [hl, splitChars_append, splitChars_of_not_mem sep b hb] at h
      simp only [List.getLast?_append, List.getLast?_singleton, Option.or,
        Option.some.injEq] at h
      exact Or.inr ⟨a, by rw [hl, h]⟩
  · rintro (h | ⟨pre, h⟩)
    · rw [h, splitChars_of_not_mem sep x hx]
      rfl
    · rw [h, splitChars_append, splitChars_of_not_mem sep x hx]
      simp

theorem HasPrefix_iff (s p : String) : HasPrefix s p = true ↔ ∃ rest, s = p ++ rest := by
  unfold HasPrefix
  rw [isPrefixOf_iff_append]
  constructor
  · rintro ⟨t, h⟩
    exact ⟨String.mk t, String.ext (by simp [String.data_append, h])⟩
  · rintro ⟨rest, h⟩
    exact ⟨rest.data, by rw [h, String.data_append]⟩

theorem Split_head_api (h : String) :
    (Split h '.').head? = some "api" ↔ h = "api" ∨ ∃ rest, h = "api." ++ rest := by
  have h1 : (Split h '.').head? = some "api" ↔
      (splitChars '.' h.data).head? = some ['a', 'p', 'i'] := by
    unfold Split
    rw [List.head?_map]
    cases (splitChars '.' h.data).head? with
    | none => simp
    | some y =>
      simp only [Option.map_some', Option.some.injEq]
      constructor
      · intro e
        exact congrArg String.data e
      · intro e
        exact String.ext e
  rw [h1, splitChars_head '.' h.data ['a', 'p', 'i'] (by decide)]
  constructor
  · rintro (e | ⟨rest, e⟩)
    · exact Or.inl (String.ext e)
    · exact Or.inr ⟨String.mk rest, String.ext (by simp [String.data_append, e])⟩
  · rintro (e | ⟨rest, e⟩)
    · exact Or.inl (by rw [e])
    · exact Or.inr ⟨rest.data, by rw [e, String.data_append]; rfl⟩

theorem Split_getLast_api (h : String) :
    (Split h '.').getLast? = some "api" ↔ h = "api" ∨ ∃ pre, h = pre ++ ".api" := by
  have h1 : (Split h '.').getLast? = some "api" ↔
      (splitChars '.' h.data).getLast? = some ['a', 'p', 'i'] := by
    unfold Split
    rw [List.getLast?_map]
    cases (splitChars '.' h.data).getLast? with
    | none => simp
    | some y =>
      simp only [Option.map_some', Option.some.injEq]
      constructor
      · intro e
        exact congrArg String.data e
      · intro e
        exact String.ext e
  rw [h1, splitChars_getLast '.' h.data ['a', 'p', 'i'] (by decide)]
  constructor
  · rintro (e | ⟨pre, e⟩)
    · exact Or.inl (String.ext e)
    · exact Or.inr ⟨String.mk pre, String.ext (by simp [String.data_append, e])⟩
  · rintro (e | ⟨pre, e⟩)
    · exact Or.inl (by rw [e])
    · exact Or.inr ⟨pre.data, by rw [e, String.data_append]⟩

/-- Lower-casing rune by rune, then looking for "json", finds the four letters
in either case. -/
theorem Contains_lower_json (f : Char → Char) (ct : String)
    (hj : ∀ c, f c = 'j' ↔ c = 'j' ∨ c = 'J') (hs : ∀ c, f c = 's' ↔ c = 's' ∨ c = 'S')
    (ho : ∀ c, f c = 'o' ↔ c = 'o' ∨ c = 'O') (hn : ∀ c, f c = 'n' ↔ c = 'n' ∨ c = 'N') :
    Contains (String.mk (ct.data.map f)) "json" = true ↔
      ∃ pre a b c d post, ct = pre ++ String.mk [a, b, c, d] ++ post ∧
        (a = 'j' ∨ a = 'J') ∧ (b = 's' ∨ b = 'S') ∧ (c = 'o' ∨ c = 'O') ∧
        (d = 'n' ∨ d = 'N') := by
  unfold Contains
  rw [containsChars_iff_append]
  have hd : ("json" : String).data = ['j', 's', 'o', 'n'] := rfl
  rw [hd]
  constructor
  · rintro ⟨x, y, h⟩
    simp only [List.map_eq_append_iff] at h
    obtain ⟨l12, l3, hl, ⟨l1, l2, hl12, -, h2⟩, -⟩ := h
    simp only [List.map_eq_cons_iff, List.map_eq_nil_iff] at h2
    obtain ⟨a, ta, rfl, ha, b, tb, rfl, hb, c, tc, rfl, hc, d, td, rfl, hd', rfl⟩ := h2
    refine ⟨String.mk l1, a, b, c, d, String.mk l3, ?_, (hj a).mp ha, (hs b).mp hb,
      (ho c).mp hc, (hn d).mp hd'⟩
    apply String.ext
    simp [String.data_append, hl, hl12]
  · rintro ⟨pre, a, b, c, d, post, h, ha, hb, hc, hd'⟩
    refine ⟨pre.data.map f, post.data.map f, ?_⟩
    rw [h]
    simp [String.data_append, (hj a).mpr ha, (hs b).mpr hb, (ho c).mpr hc, (hn d).mpr hd']
/-- `Char.toLower` maps to the small letter `x` the letter itself and its
capital `X`, and nothing else. -/
theorem toLower_eq_iff (c x X : Char) (hX : 65 ≤ X.toNat ∧ X.toNat ≤ 90)
    (hx : x = Char.ofNat (X.toNat + 32)) (hx2 : ¬ (65 ≤ x.toNat ∧ x.toNat ≤ 90))
    (hinj : ∀ n, 65 ≤ n → n ≤ 90 → Char.ofNat (n + 32) = x → n = X.toNat) :
    c.toLower = x ↔ c = x ∨ c = X := by
  unfold Char.toLower
  simp only []
  constructor
  · intro h
    split at h
    · rename_i hr
      right
      have hn := hinj c.toNat hr.1 hr.2 h
      rw [← Char.ofNat_toNat c, hn, Char.ofNat_toNat]
    · exact Or.inl h
  · rintro (h | h)
    · subst h
      simp [hx2]
    · subst h
      simp [hX, hx]

theorem headD_eq_api (l : List String) : l.headD "" = "api" ↔ l.head? = some "api" := by
  cases l with
  | nil => simp
  | cons a l => simp

theorem ite_true_or (b c : Bool) : (if b = true then true else c) = (b || c) := by
  cases b <;> rfl

theorem getLastD_eq_api (l : List String) :
    l.getLastD "" = "api" ↔ l.getLast? = some "api" := by
  cases l with
  | nil => simp
  | cons a l => simp [List.getLast?_cons]

/-! ## JSON or HTML -/

/-- C12: `wantsJSON` returns true exactly when the URL path starts with "/api",
or the host with any port removed has "api" as its first or as its last
dot-separated label, or the `Content-Type` header contains the letters of
"json" in a row, each in either case; otherwise it returns false. Here
`strings.ToLower` maps its argument rune by rune and takes only a letter and
its capital to 'j', 's', 'o' and 'n'. The first label is "api" when the host
is "api" or starts with "api.", the last when it is "api" or ends with ".api".
With the path "/", the host "www.example.com" and an empty `Content-Type` the
result is false. -/
theorem wantsJSON_iff (lib : Stdlib) (r : Request) (f : Char → Char)
    (hmap : ∀ s, lib.ToLower s = String.mk (s.data.map f))
    (hj : ∀ c, f c = 'j' ↔ c = 'j' ∨ c = 'J') (hs : ∀ c, f c = 's' ↔ c = 's' ∨ c = 'S')
    (ho : ∀ c, f c = 'o' ↔ c = 'o' ∨ c = 'O') (hn : ∀ c, f c = 'n' ↔ c = 'n' ∨ c = 'N') :
    (wantsJSON lib r = true ↔
      (∃ rest, r.Path = "/api" ++ rest) ∨
      (Split (hostWithoutPort lib r.Host) '.').head? = some "api" ∨
      (Split (hostWithoutPort lib r.Host) '.').getLast? = some "api" ∨
      ∃ pre a b c d post, r.Header "Content-Type" = pre ++ String.mk [a, b, c, d] ++ post ∧
        (a = 'j' ∨ a = 'J') ∧ (b = 's' ∨ b = 'S') ∧ (c = 'o' ∨ c = 'O') ∧
        (d = 'n' ∨ d = 'N')) ∧
    (wantsJSON lib r = false ↔
      ¬ ((∃ rest, r.Path = "/api" ++ rest) ∨
      (Split (hostWithoutPort lib r.Host) '.').head? = some "api" ∨
      (Split (hostWithoutPort lib r.Host) '.').getLast? = some "api" ∨
      ∃ pre a b c d post, r.Header "Content-Type" = pre ++ String.mk [a, b, c, d] ++ post ∧
        (a = 'j' ∨ a = 'J') ∧ (b = 's' ∨ b = 'S') ∧ (c = 'o' ∨ c = 'O') ∧
        (d = 'n' ∨ d = 'N'))) ∧
    ((Split (hostWithoutPort lib r.Host) '.').head? = some "api" ↔
      hostWithoutPort lib r.Host = "api" ∨
        ∃ rest, hostWithoutPort lib r.Host = "api." ++ rest) ∧
    ((Split (hostWithoutPort lib r.Host) '.').getLast? = some "api" ↔
      hostWithoutPort lib r.Host = "api" ∨
        ∃ pre, hostWithoutPort lib r.Host = pre ++ ".api") ∧
    (r.Path = "/" → hostWithoutPort lib r.Host = "www.example.com" →
      r.Header "Content-Type" = "" → wantsJSON lib r = false) := by
  have hC := Contains_lower_json f (r.Header "Content-Type") hj hs ho hn
  rw [← hmap] at hC
  have key : wantsJSON lib r =
      (HasPrefix r.Path "/api" ||
        ((decide ((Split (hostWithoutPort lib r.Host) '.').headD "" = "api") ||
          decide ((Split (hostWithoutPort lib r.Host) '.').getLastD "" = "api")) ||
        Contains (lib.ToLower (r.Header "Content-Type")) "json")) := by
    unfold wantsJSON hostWithoutPort
    simp only [ite_true_or]
  have main : wantsJSON lib r = true ↔
      (∃ rest, r.Path = "/api" ++ rest) ∨
      (Split (hostWithoutPort lib r.Host) '.').head? = some "api" ∨
      (Split (hostWithoutPort lib r.Host) '.').getLast? = some "api" ∨
      ∃ pre a b c d post, r.Header "Content-Type" = pre ++ String.mk [a, b, c, d] ++ post ∧
        (a = 'j' ∨ a = 'J') ∧ (b = 's' ∨ b = 'S') ∧ (c = 'o' ∨ c = 'O') ∧
        (d = 'n' ∨ d = 'N') := by
    rw [key]
    simp only [Bool.or_eq_true, decide_eq_true_eq, HasPrefix_iff, headD_eq_api,
      getLastD_eq_api, hC, or_assoc]
  refine ⟨main, ?_, Split_head_api _, Split_getLast_api _, ?_⟩
  · rw [← main]
    simp
  · intro hp hh hc
    have he : ("" : String).data = [] := rfl
    rw [key, hp, hh, hc, hmap, he, List.map_nil]
    decide

/-- Witness for C12: three requests in the manner of `TestWantsJSON`: the host
"api.example.com:8080" and a `Content-Type` "application/JSON" give true, the
host "www.example.com" without a `Content-Type` gives false. -/
theorem wantsJSON_iff_witness :
    wantsJSON testLib apiHostRequest = true ∧
    wantsJSON testLib jsonRequest = true ∧
    wantsJSON testLib wwwRequest = false :=
  have hj : ∀ c : Char, c.toLower = 'j' ↔ c = 'j' ∨ c = 'J' := fun c =>
    toLower_eq_iff c 'j' 'J' (by decide) (by decide) (by decide) (by
      intro n h1 h2 h
      interval_cases n <;> first | rfl | (exact absurd h (by decide)))
  have hs : ∀ c : Char, c.toLower = 's' ↔ c = 's' ∨ c = 'S' := fun c =>
    toLower_eq_iff c 's' 'S' (by decide) (by decide) (by decide) (by
      intro n h1 h2 h
      interval_cases n <;> first | rfl | (exact absurd h (by decide)))
  have ho : ∀ c : Char, c.toLower = 'o' ↔ c = 'o' ∨ c = 'O' := fun c =>
    toLower_eq_iff c 'o' 'O' (by decide) (by decide) (by decide) (by
      intro n h1 h2 h
      interval_cases n <;> first | rfl | (exact absurd h (by decide)))
  have hn : ∀ c : Char, c.toLower = 'n' ↔ c = 'n' ∨ c = 'N' := fun c =>
    toLower_eq_iff c 'n' 'N' (by decide) (by decide) (by decide) (by
      intro n h1 h2 h
      interval_cases n <;> first | rfl | (exact absurd h (by decide)))
  ⟨(wantsJSON_iff testLib apiHostRequest Char.toLower (fun _ => rfl) hj hs ho hn).1.mpr
      (Or.inr (Or.inl (by decide))),
    (wantsJSON_iff testLib jsonRequest Char.toLower (fun _ => rfl) hj hs ho hn).1.mpr
      (Or.inr (Or.inr (Or.inr ⟨"application/", 'J', 'S', 'O', 'N', "", by decide,
        Or.inr rfl, Or.inr rfl, Or.inr rfl, Or.inr rfl⟩))),
    (wantsJSON_iff testLib wwwRequest Char.toLower (fun _ => rfl) hj hs ho hn).2.2.2.2
      rfl (by decide) rfl⟩

end Myip
